import Mathlib

/-!
Verification of the Threat Intelligence & Campaign Detection Engine of the
phishy-email-analyzer repository, as a shallow embedding in Lean 4.

Conventions of the embedding:
* TypeScript string-union enums become inductives; JS strings become `String`
  (reasoned about through their `List Char` data).
* JS `Date` timestamps become `Int` milliseconds since the epoch; numeric
  scores (IEEE doubles holding values like `0.7`) become `ℚ`.
* A SHA-256 digest is represented by the string it digests (the code relies
  on the digest being injective; the 16-hex-char truncation of campaign
  signatures is likewise not modelled).
* Postgres tables with a uniqueness key become association lists keyed by
  that key; an `ON CONFLICT ... DO UPDATE` upsert becomes insert-or-merge.
* Regex character classes (`\d`, `\s`, `\w`) are modelled over the ASCII
  fragment by codepoint predicates, and `String.prototype.toLowerCase` by
  the ASCII case map.
-/

namespace Phishy

set_option maxRecDepth 8000

/-- JS regex `\s` (ASCII fragment): the whitespace characters relevant here. -/
def isWsChar (c : Char) : Bool :=
  c = ' ' || c = '\t' || c = '\n' || c = '\r' || c = '\x0b' || c = '\x0c'

/-- JS regex `\d`: ASCII decimal digit, by codepoint. -/
def isDigitChar (c : Char) : Bool :=
  48 ≤ c.toNat && c.toNat ≤ 57

/-- ASCII uppercase letter, by codepoint. -/
def isUpperChar (c : Char) : Bool :=
  65 ≤ c.toNat && c.toNat ≤ 90

/-- ASCII lowercase letter, by codepoint. -/
def isLowerChar (c : Char) : Bool :=
  97 ≤ c.toNat && c.toNat ≤ 122

/-- JS regex `\w`: word character `[A-Za-z0-9_]`. -/
def isWordChar (c : Char) : Bool :=
  isUpperChar c || isLowerChar c || isDigitChar c || c = '_'

/-- `String.prototype.toLowerCase` on one character (ASCII case map). -/
def lowerChar (c : Char) : Char :=
  if 65 ≤ c.toNat && c.toNat ≤ 90 then Char.ofNat (c.toNat + 32) else c

/-- `String.prototype.toLowerCase`, character by character. -/
def lowerList (l : List Char) : List Char := l.map lowerChar

/-- `String.prototype.toLowerCase` on strings. -/
def toLowerStr (s : String) : String := ⟨lowerList s.data⟩

/-- `l.dropWhile isWsChar`: skip a run of whitespace. -/
def dropWs (l : List Char) : List Char := l.dropWhile isWsChar

/-- Skip a run of digits. -/
def dropDigits (l : List Char) : List Char := l.dropWhile isDigitChar

/-- Fuel-indexed scanner for one global replace
`s.replace(marker + optional whitespace, '')`: scans left to right, and at
each position where the marker occurs deletes it together with the
whitespace run following it. The fuel only makes the recursion structural;
`stripAll` supplies enough of it for the fuel never to run out. -/
def stripAllGo (m : List Char) : Nat → List Char → List Char
  | _, [] => []
  | 0, l => l
  | fuel + 1, c :: rest =>
    if m.isPrefixOf (c :: rest) && !m.isEmpty then
      stripAllGo m fuel (dropWs (rest.drop (m.length - 1)))
    else
      c :: stripAllGo m fuel rest

/-- One global replace of a marker and its trailing whitespace (the JS
regexes `/re:\s*/gi`, `/fw:\s*/gi`, `/fwd:\s*/gi`; their inputs are already
lowercased when they run, so matching the lowercase marker is faithful). -/
def stripAll (m l : List Char) : List Char := stripAllGo m l.length l

/-- Fuel-indexed scanner for the global replace `/\d+/g → '#'`. -/
def digitsToHashGo : Nat → List Char → List Char
  | _, [] => []
  | 0, l => l
  | fuel + 1, c :: rest =>
    if isDigitChar c then '#' :: digitsToHashGo fuel (dropDigits rest)
    else c :: digitsToHashGo fuel rest

/-- Global replace `/\d+/g → '#'`: every maximal digit run becomes one `#`. -/
def digitsToHash (l : List Char) : List Char := digitsToHashGo l.length l

/-- Global replace `/[^\w\s#]/g → ''`: keep only word chars, whitespace, `#`. -/
def keepWordWsHash (l : List Char) : List Char :=
  l.filter fun c => isWordChar c || isWsChar c || c = '#'

/-- Fuel-indexed scanner for the global replace `/\s+/g → ' '`. -/
def collapseWsGo : Nat → List Char → List Char
  | _, [] => []
  | 0, l => l
  | fuel + 1, c :: rest =>
    if isWsChar c then ' ' :: collapseWsGo fuel (dropWs rest)
    else c :: collapseWsGo fuel rest

/-- Global replace `/\s+/g → ' '`: every maximal whitespace run becomes one
space. -/
def collapseWs (l : List Char) : List Char := collapseWsGo l.length l

/-- `String.prototype.trim`: drop whitespace from both ends. -/
def trimWs (l : List Char) : List Char :=
  (l.dropWhile isWsChar).rdropWhile isWsChar

/-- The character-level pipeline of `normalizeSubjectForCampaign` before
the final truncation, in source order: lowercase, globally remove the
`re:`/`fw:`/`fwd:` markers each with trailing whitespace, turn digit runs
into `#`, drop everything but word characters, whitespace and `#`,
collapse whitespace, trim. -/
def normalizeCore (l : List Char) : List Char :=
  trimWs (collapseWs (keepWordWsHash (digitsToHash
    (stripAll "fwd:".data (stripAll "fw:".data (stripAll "re:".data
      (lowerList l)))))))

/-- `normalizeSubjectForCampaign` (intelligence/index.ts, lines 848-859):
the pipeline of `normalizeCore` followed by `.substring(0, 100)`. -/
def normalizeSubjectForCampaign (s : String) : String :=
  ⟨(normalizeCore s.data).take 100⟩

/-- The four-valued risk/severity scale shared by campaigns and threat
indicators (`'critical' | 'high' | 'medium' | 'low'`). -/
inductive RiskLevel
  | critical
  | high
  | medium
  | low
deriving DecidableEq

/-- Position of a level in the ordering critical > high > medium > low. -/
def riskRank : RiskLevel → Nat
  | .critical => 3
  | .high => 2
  | .medium => 1
  | .low => 0

/-- The worse of two levels under critical > high > medium > low (the
ordering named by the spec for merge semantics). -/
def riskMax (a b : RiskLevel) : RiskLevel :=
  if riskRank a ≤ riskRank b then b else a

/-- Association-list lookup by key (models `SELECT ... WHERE key = $1`). -/
def lookupAssoc {α β : Type} [DecidableEq α] (k : α) : List (α × β) → Option β
  | [] => none
  | (k0, v) :: rest => if k0 = k then some v else lookupAssoc k rest

/-- Association-list upsert: replace the first row with the key, or append a
new row (models an atomic keyed `INSERT ... ON CONFLICT` statement; the
uniqueness constraint keeps at most one row per key). -/
def upsertAssoc {α β : Type} [DecidableEq α] (k : α) (v : β) :
    List (α × β) → List (α × β)
  | [] => [(k, v)]
  | (k0, v0) :: rest =>
    if k0 = k then (k, v) :: rest else (k0, v0) :: upsertAssoc k v rest

/-- Number of rows carrying a key (for uniqueness statements). -/
def countKey {α β : Type} [DecidableEq α] (k : α) (s : List (α × β)) : Nat :=
  (s.filter fun kv => kv.1 = k).length

/-! ## Campaign tracking (intelligence/index.ts) -/

/-- One row of the `campaigns` table. -/
structure CampaignRow where
  senderDomain : String
  subjectPattern : String
  detectionCount : Nat
  uniqueRecipients : List String
  riskLevel : RiskLevel
  sampleIndicators : List String
  firstSeenAt : Int
  lastSeenAt : Int
  alertSentAt : Option Int
  isActive : Bool
deriving DecidableEq

/-- The `campaigns` table, unique on `campaign_signature`. -/
abbrev CampaignStore := List (String × CampaignRow)

/-- Campaign signature: the code takes the first 16 hex chars of
`SHA256(lowercase(senderDomain) + ":" + normalizedSubject)`; the digest is
modelled by its (injective, untruncated) preimage. -/
def campaignSignature (senderDomain subject : String) : String :=
  toLowerStr senderDomain ++ ":" ++ normalizeSubjectForCampaign subject

/-- The `CampaignMatch` value returned by `trackCampaignDetection`. -/
structure CampaignMatch where
  campaignId : String
  signature : String
  detectionCount : Nat
  uniqueRecipientCount : Nat
  hoursActive : ℚ
  shouldAlert : Bool
  alertSentAt : Option Int
deriving DecidableEq

/-- `trackCampaignDetection` (intelligence/index.ts, lines 709-796).
Inside one transaction the campaign row is inserted (first detection) or
updated (`detection_count + 1`, recipient appended to `unique_recipients`
only when absent, the `risk_level` CASE, `last_seen_at = NOW()`,
`is_active = TRUE`); after the commit the returned row decides
`shouldAlert`. `now` stands for `NOW()`/`Date.now()` in milliseconds, and
the row id is modelled by the signature. -/
def trackCampaignDetection (now : Int) (store : CampaignStore)
    (senderDomain subject recipientEmail : String)
    (riskLevel : RiskLevel) (indicators : List String) :
    CampaignStore × CampaignMatch :=
  let normalizedSubject := normalizeSubjectForCampaign subject
  let signature := campaignSignature senderDomain subject
  let row : CampaignRow :=
    match lookupAssoc signature store with
    | none =>
      { senderDomain := toLowerStr senderDomain
        subjectPattern := normalizedSubject
        detectionCount := 1
        uniqueRecipients := [toLowerStr recipientEmail]
        riskLevel := riskLevel
        sampleIndicators := indicators.take 5
        firstSeenAt := now
        lastSeenAt := now
        alertSentAt := none
        isActive := true }
    | some old =>
      { old with
        detectionCount := old.detectionCount + 1
        uniqueRecipients :=
          if toLowerStr recipientEmail ∈ old.uniqueRecipients then
            old.uniqueRecipients
          else
            old.uniqueRecipients ++ [toLowerStr recipientEmail]
        riskLevel :=
          if riskLevel = .critical then .critical
          else if old.riskLevel = .critical then .critical
          else if riskLevel = .high ∨ old.riskLevel = .high then .high
          else old.riskLevel
        lastSeenAt := now
        isActive := true }
  let hoursActive : ℚ := ((now - row.firstSeenAt : Int) : ℚ) / (1000 * 60 * 60)
  let shouldAlert : Bool :=
    decide (3 ≤ row.detectionCount) &&
    decide (2 ≤ row.uniqueRecipients.length) &&
    decide (hoursActive ≤ 4) &&
    (riskLevel == .high || riskLevel == .critical) &&
    (match row.alertSentAt with
     | none => true
     | some t => decide ((24 * 60 * 60 * 1000 : Int) < now - t))
  (upsertAssoc signature row store,
    { campaignId := signature
      signature := signature
      detectionCount := row.detectionCount
      uniqueRecipientCount := row.uniqueRecipients.length
      hoursActive := hoursActive
      shouldAlert := shouldAlert
      alertSentAt := row.alertSentAt })

/-! ## Threat indicators (intelligence/database.service.ts) -/

/-- `IndicatorType` union. -/
inductive IndicatorType
  | domain
  | ip
  | url
  | email
  | hash
  | file_name
  | subject_pattern
deriving DecidableEq

/-- Rendering of an `IndicatorType` as the string that feeds the hash. -/
def indicatorTypeStr : IndicatorType → String
  | .domain => "domain"
  | .ip => "ip"
  | .url => "url"
  | .email => "email"
  | .hash => "hash"
  | .file_name => "file_name"
  | .subject_pattern => "subject_pattern"

/-- `ThreatIndicatorRecord`: both the candidate produced by the IOC
extractor and a row of the `threat_indicators` table (metadata is carried
as its serialized JSON payload). -/
structure ThreatIndicatorRecord where
  indicatorType : IndicatorType
  indicatorValue : String
  indicatorHash : String
  confidenceScore : ℚ
  severity : RiskLevel
  timesSeen : Nat
  firstSeenAt : Int
  lastSeenAt : Int
  isActive : Bool
  expiresAt : Option Int
  metadata : Option String
deriving DecidableEq

/-- `hashIndicator`: `SHA256(type + ":" + lowercase(value))`, the digest
modelled by its injective preimage. -/
def hashIndicator (t : IndicatorType) (v : String) : String :=
  indicatorTypeStr t ++ ":" ++ toLowerStr v

/-- The `threat_indicators` table, unique on (`indicator_type`,
`indicator_hash`). -/
abbrev IndicatorStore := List ((IndicatorType × String) × ThreatIndicatorRecord)

/-- The severity CASE of `upsertIndicator`: the worse of the stored and the
incoming severity, spelled out branch by branch as in the SQL. -/
def upsertSeverityCase (incoming stored : RiskLevel) : RiskLevel :=
  if incoming = .critical then .critical
  else if stored = .critical then .critical
  else if incoming = .high ∨ stored = .high then .high
  else if incoming = .medium ∨ stored = .medium then .medium
  else .low

/-- `upsertIndicator` (database.service.ts, lines 335-374): one atomic
`INSERT ... ON CONFLICT (indicator_type, indicator_hash) DO UPDATE` with
`times_seen + 1`, `last_seen_at = NOW()`, `GREATEST` of the confidence
scores and the severity CASE. On first insert every column comes from the
record, except the hash which is recomputed. -/
def upsertIndicator (now : Int) (store : IndicatorStore)
    (indicator : ThreatIndicatorRecord) : IndicatorStore :=
  let hash := hashIndicator indicator.indicatorType indicator.indicatorValue
  let key := (indicator.indicatorType, hash)
  match lookupAssoc key store with
  | none => upsertAssoc key { indicator with indicatorHash := hash } store
  | some old =>
    upsertAssoc key
      { old with
        timesSeen := old.timesSeen + 1
        lastSeenAt := now
        confidenceScore := max old.confidenceScore indicator.confidenceScore
        severity := upsertSeverityCase indicator.severity old.severity }
      store

/-! ## IOC extraction (intelligence/ioc.extractor.ts) -/

/-- `pat.isPrefixOf`-based substring test: `String.prototype.includes`. -/
def hasSubstr (pat : List Char) : List Char → Bool
  | [] => pat.isEmpty
  | c :: rest => pat.isPrefixOf (c :: rest) || hasSubstr pat rest

/-- `String.prototype.includes` on strings. -/
def strIncludes (s sub : String) : Bool := hasSubstr sub.data s.data

/-- The slice of `AnalysisResult` this engine consumes. -/
structure AnalysisResult where
  summary : String
  isPhishing : Bool
  confidence : String
  indicators : List String
  recommendations : List String
deriving DecidableEq

/-- `determineSeverity` (ioc.extractor.ts, lines 320-334). -/
def determineSeverity (analysis : AnalysisResult) : RiskLevel :=
  if !analysis.isPhishing then .low
  else
    let confidence := toLowerStr analysis.confidence
    if strIncludes confidence "very high" || confidence == "high" then .critical
    else if confidence == "medium" || strIncludes confidence "moderate" then .high
    else .medium

/-- `suf.isSuffixOf`-based test: `String.prototype.endsWith`. -/
def strEndsWith (s suf : String) : Bool := suf.data.isSuffixOf s.data

/-- The allow-list of `isSafeDomain` (ioc.extractor.ts, lines 351-363). -/
def safeDomains : List String :=
  ["google.com", "microsoft.com", "apple.com", "amazon.com",
   "facebook.com", "linkedin.com", "twitter.com",
   "github.com", "slack.com", "zoom.us",
   "salesforce.com", "office.com", "outlook.com"]

/-- `isSafeDomain`: exact match or subdomain of an allow-listed domain. -/
def isSafeDomain (domain : String) : Bool :=
  let lowerDomain := toLowerStr domain
  safeDomains.any fun safe =>
    lowerDomain == safe || strEndsWith lowerDomain ("." ++ safe)

/-- `isSafeEmail`: the part after the first `@` (JS `split('@')[1]`), empty
or missing counts as not safe (JS falsiness of `undefined` and `""`). -/
def isSafeEmail (email : String) : Bool :=
  match (email.splitOn "@").get? 1 with
  | some d => if d.isEmpty then false else isSafeDomain d
  | none => false

/-- `isPrivateIP`: `ip.split('.').map(Number)` with the RFC1918/loopback
checks; `Number` on the dotted-decimal segments the IP regex produces is
decimal parsing, and a failed parse (`NaN`) fails every comparison. -/
def isPrivateIP (ip : String) : Bool :=
  let parts := (ip.splitOn ".").map fun p => p.toNat?
  let p0 := (parts.get? 0).join
  let p1 := (parts.get? 1).join
  p0 == some 10 ||
  (p0 == some 172 &&
    (match p1 with | some n => decide (16 ≤ n) && decide (n ≤ 31) | none => false)) ||
  (p0 == some 192 && p1 == some 168) ||
  p0 == some 127

/-- JS `Set` insertion-order deduplication (keeps first occurrences). -/
def dedupFirst {α : Type} [DecidableEq α] : List α → List α :=
  go []
where
  go (seen : List α) : List α → List α
    | [] => []
    | a :: rest => if a ∈ seen then go seen rest else a :: go (a :: seen) rest

/-- The regex- and URL-parser library calls of the extractor, modelled as
abstract functions: `extractUrls` (utils/validation.ts), `new URL(u).hostname`
(`none` when the constructor throws), the `IP_REGEX`/`HASH_PATTERNS` match
lists, the three suspicious-pattern regex tests, and `extractDomain`
(utils/validation.ts, itself regex-based). Every theorem quantifying over a
`TextPrims` holds for the concrete library behaviours. -/
structure TextPrims where
  extractUrls : String → List String
  urlHostname : String → Option String
  matchIp : String → List String
  matchMd5 : String → List String
  matchSha1 : String → List String
  matchSha256 : String → List String
  suspiciousUrl : String → Bool
  suspiciousDomain : String → Bool
  suspiciousEmail : String → Bool
  extractDomainFromEmail : String → Option String

/-- `isSafeUrl`: hostname of the parsed URL is allow-listed; an invalid URL
(constructor throws) is not safe. -/
def isSafeUrl (prims : TextPrims) (url : String) : Bool :=
  match prims.urlHostname url with
  | some h => isSafeDomain h
  | none => false

/-- The slice of `ExtractedEmailData` the extractor consumes. -/
structure ExtractedEmailData where
  from_email : String
  subject : String
  text : String
  html : String
  links : List String
deriving DecidableEq

/-- `extractUrlIOCs` (ioc.extractor.ts, lines 118-153). -/
def extractUrlIOCs (prims : TextPrims) (content : String)
    (baseConfidence : ℚ) (severity : RiskLevel) (now : Int) :
    List ThreatIndicatorRecord :=
  ((prims.extractUrls content).filter fun url => !isSafeUrl prims url).map
    fun url =>
      let confidence :=
        if prims.suspiciousUrl url then min (baseConfidence + 0.2) 1
        else baseConfidence
      { indicatorType := .url
        indicatorValue := url
        indicatorHash := hashIndicator .url url
        confidenceScore := confidence
        severity := severity
        timesSeen := 1
        firstSeenAt := now
        lastSeenAt := now
        isActive := true
        expiresAt := none
        metadata := none }

/-- `extractDomainIOCs` (ioc.extractor.ts, lines 158-211): the sender's
domain (when extractable, non-empty and not allow-listed) followed by the
lowercased hostnames of the URLs in the content, deduplicated in insertion
order. -/
def extractDomainIOCs (prims : TextPrims) (emailData : ExtractedEmailData)
    (content : String) (baseConfidence : ℚ) (severity : RiskLevel)
    (now : Int) : List ThreatIndicatorRecord :=
  let senderDomains :=
    match prims.extractDomainFromEmail emailData.from_email with
    | some d => if d.isEmpty || isSafeDomain d then [] else [d]
    | none => []
  let urlDomains :=
    (prims.extractUrls content).filterMap fun url =>
      match prims.urlHostname url with
      | some h =>
        let domain := toLowerStr h
        if isSafeDomain domain then none else some domain
      | none => none
  (dedupFirst (senderDomains ++ urlDomains)).map fun domain =>
    let confidence :=
      if prims.suspiciousDomain domain then min (baseConfidence + 0.2) 1
      else baseConfidence
    { indicatorType := .domain
      indicatorValue := domain
      indicatorHash := hashIndicator .domain domain
      confidenceScore := confidence
      severity := severity
      timesSeen := 1
      firstSeenAt := now
      lastSeenAt := now
      isActive := true
      expiresAt := none
      metadata := none }

/-- `extractIPIOCs` (ioc.extractor.ts, lines 216-244). -/
def extractIPIOCs (prims : TextPrims) (content : String)
    (baseConfidence : ℚ) (severity : RiskLevel) (now : Int) :
    List ThreatIndicatorRecord :=
  ((dedupFirst (prims.matchIp content)).filter fun ip => !isPrivateIP ip).map
    fun ip =>
      { indicatorType := .ip
        indicatorValue := ip
        indicatorHash := hashIndicator .ip ip
        confidenceScore := baseConfidence
        severity := severity
        timesSeen := 1
        firstSeenAt := now
        lastSeenAt := now
        isActive := true
        expiresAt := none
        metadata := none }

/-- `extractHashIOCs` (ioc.extractor.ts, lines 249-278): for each of the
`HASH_PATTERNS` entries in declaration order (md5, sha1, sha256), the
deduplicated matches; the value is tagged with the algorithm and the
metadata carries the `hashType` payload. -/
def extractHashIOCs (prims : TextPrims) (content : String)
    (baseConfidence : ℚ) (severity : RiskLevel) (now : Int) :
    List ThreatIndicatorRecord :=
  let perKind : String → List String → List ThreatIndicatorRecord :=
    fun hashType found => (dedupFirst found).map fun h =>
      { indicatorType := IndicatorType.hash
        indicatorValue := hashType ++ ":" ++ toLowerStr h
        indicatorHash := hashIndicator .hash (toLowerStr h)
        confidenceScore := baseConfidence
        severity := severity
        timesSeen := 1
        firstSeenAt := now
        lastSeenAt := now
        isActive := true
        expiresAt := none
        metadata := some hashType }
  perKind "md5" (prims.matchMd5 content) ++
    perKind "sha1" (prims.matchSha1 content) ++
    perKind "sha256" (prims.matchSha256 content)

/-- `extractEmailIOCs` (ioc.extractor.ts, lines 283-315): only the
lowercased sender address, when non-empty and not allow-listed. -/
def extractEmailIOCs (prims : TextPrims) (emailData : ExtractedEmailData)
    (baseConfidence : ℚ) (severity : RiskLevel) (now : Int) :
    List ThreatIndicatorRecord :=
  let senderEmail := toLowerStr emailData.from_email
  if !senderEmail.isEmpty && !isSafeEmail senderEmail then
    let confidence :=
      if prims.suspiciousEmail senderEmail then min (baseConfidence + 0.2) 1
      else baseConfidence
    [{ indicatorType := .email
       indicatorValue := senderEmail
       indicatorHash := hashIndicator .email senderEmail
       confidenceScore := confidence
       severity := severity
       timesSeen := 1
       firstSeenAt := now
       lastSeenAt := now
       isActive := true
       expiresAt := none
       metadata := none }]
  else []

/-- `IOCExtractionOptions`: every field optional; a `none` falls back to
`DEFAULT_OPTIONS` under the `{ ...DEFAULT_OPTIONS, ...options }` spread. -/
structure IOCExtractionOptions where
  extractUrls : Option Bool := none
  extractDomains : Option Bool := none
  extractIPs : Option Bool := none
  extractHashes : Option Bool := none
  extractEmails : Option Bool := none
  minConfidence : Option ℚ := none
deriving DecidableEq

/-- `extractIOCs` (ioc.extractor.ts, lines 52-113): merge the options with
the defaults, compute the base confidence and severity from the verdict,
join all content with spaces, run the five enabled extraction kinds in
order, and keep the candidates whose confidence reaches `minConfidence`
(the source's trailing `?? 0` is unreachable because the merge already
defaulted `minConfidence` to `0.3`). `now` stands for `new Date()`. -/
def extractIOCs (prims : TextPrims) (now : Int)
    (emailData : ExtractedEmailData) (analysis : AnalysisResult)
    (options : IOCExtractionOptions) : List ThreatIndicatorRecord :=
  let optUrls := options.extractUrls.getD true
  let optDomains := options.extractDomains.getD true
  let optIPs := options.extractIPs.getD true
  let optHashes := options.extractHashes.getD true
  let optEmails := options.extractEmails.getD true
  let minConfidence := options.minConfidence.getD 0.3
  let baseConfidence : ℚ := if analysis.isPhishing then 0.7 else 0.3
  let severity := determineSeverity analysis
  let allContent :=
    String.intercalate " "
      ([emailData.text, emailData.html, emailData.subject] ++ emailData.links)
  let indicators :=
    (if optUrls then
      extractUrlIOCs prims allContent baseConfidence severity now else []) ++
    (if optDomains then
      extractDomainIOCs prims emailData allContent baseConfidence severity now
     else []) ++
    (if optIPs then
      extractIPIOCs prims allContent baseConfidence severity now else []) ++
    (if optHashes then
      extractHashIOCs prims allContent baseConfidence severity now else []) ++
    (if optEmails then
      extractEmailIOCs prims emailData baseConfidence severity now else [])
  indicators.filter fun i => decide (minConfidence ≤ i.confidenceScore)

/-! ## Pattern detector (pattern.detector.ts) and campaign alert service
(campaign.service.ts)

Store calls may fail; a call's outcome is `Except String α` with the error
string standing for the thrown exception. `detectPatterns` additionally
returns the trace of store operations it performed, so that frame
conditions ("no store reads or writes") are statable. -/

/-- `AnalysisSearchFilters` as passed by the detectors. -/
structure AnalysisSearchFilters where
  fromDate : Option Int := none
  toDate : Option Int := none
  isPhishing : Option Bool := none
  riskLevel : Option String := none
  fromDomain : Option String := none
  profileId : Option String := none
  limit : Option Nat := none
  offset : Option Nat := none
deriving DecidableEq

/-- The slice of a stored `EmailAnalysisRecord` the detectors read. -/
structure EmailAnalysisSlim where
  subject : String
  indicators : List String
  vipImpersonationDetected : Bool
  createdAt : Option Int
deriving DecidableEq

/-- `DetectedPattern.criteria` is a schema-less JSON payload, heterogeneous
per pattern type; it is modelled as the tagged union of the four payload
shapes the detectors build. -/
inductive PatternCriteria
  | domainCrit (domain : String) (matchingEmails : Nat)
      (firstSeen : Option Int) (lastSeen : Option Int)
  | subjectCrit (keyPhrases : List String) (matchingEmails : Nat)
      (sampleSubject : String)
  | impersonationCrit (matchingEmails : Nat) (sampleIndicators : List String)
  | urlCrit (domains : List String) (matchingEmails : Nat)
deriving DecidableEq

/-- `DetectedPatternRecord` as handed to `upsertPattern`. -/
structure DetectedPatternRecord where
  patternName : String
  patternType : String
  patternCriteria : PatternCriteria
  matchCount : Nat
  isConfirmedThreat : Bool
  firstDetectedAt : Int
  lastDetectedAt : Int
deriving DecidableEq

/-- A store operation performed by the pattern detector. -/
inductive DbOp
  | searchOp (filters : AnalysisSearchFilters)
  | upsertPatternOp (record : DetectedPatternRecord)
deriving DecidableEq

/-- The `DetectedPattern` value returned to the caller. -/
structure DetectedPattern where
  type : String
  name : String
  description : String
  criteria : PatternCriteria
  matchCount : Nat
  isNew : Bool
deriving DecidableEq

/-- `PatternDetectionOptions`; `none` falls back to `DEFAULT_OPTIONS`
(`minMatchCount = 3`, `lookbackHours = 168`) — the source merges the
defaults in the constructor and repeats the fallback (`?? 3`, `?? 168`) at
each use site, which composes to a single fallback. -/
structure PatternDetectionOptions where
  minMatchCount : Option Nat := none
  lookbackHours : Option Nat := none
deriving DecidableEq

/-- The environment of one `detectPatterns` invocation: the store (a query
function over the currently committed rows, plus the outcome of pattern
upserts) and the regex/URL library primitives used by the detectors
(`extractDomain`, `new URL(...).hostname`, the nine key-phrase regexes of
`extractSubjectKeyPhrases` as match functions, and the capture group of
`/https?:\/\/([^/]+)/`). `now` stands for `new Date()` in milliseconds;
the `setHours(getHours() - lookbackHours)` arithmetic is modelled as plain
millisecond subtraction. -/
structure DetectorEnv where
  now : Int
  search : AnalysisSearchFilters → Except String (List EmailAnalysisSlim)
  upsertPatternRes : DetectedPatternRecord → Except String Unit
  extractDomainFromEmail : String → Option String
  urlHostname : String → Option String
  phraseMatchers : List (String → List String)
  urlIndicatorDomain : String → Option String

/-- `extractSubjectKeyPhrases` (pattern.detector.ts, lines 349-373): the
concatenated lowercased matches of the phrase regexes in order, Set-deduped
and cut to the top 3. -/
def extractSubjectKeyPhrases (env : DetectorEnv) (subject : String) :
    List String :=
  (dedupFirst
    ((env.phraseMatchers.map fun m => (m subject).map toLowerStr).flatten)).take 3

/-- The lookback bound `new Date()` minus `lookbackHours` hours. -/
def lookbackDate (env : DetectorEnv) (opts : PatternDetectionOptions) : Int :=
  env.now - (opts.lookbackHours.getD 168 : Nat) * 3600000

/-- The filters of the domain-campaign search. -/
def domainCampaignFilters (env : DetectorEnv)
    (opts : PatternDetectionOptions) (domain : String) :
    AnalysisSearchFilters :=
  { fromDomain := some domain
    isPhishing := some true
    fromDate := some (lookbackDate env opts)
    limit := some 100 }

/-- The criteria payload of a detected domain campaign. -/
def domainCampaignCriteria (domain : String)
    (recentAnalyses : List EmailAnalysisSlim) : PatternCriteria :=
  PatternCriteria.domainCrit domain recentAnalyses.length
    (recentAnalyses.getLast?.bind (·.createdAt))
    (recentAnalyses.head?.bind (·.createdAt))

/-- The record a detected domain campaign upserts. -/
def domainCampaignRecord (env : DetectorEnv) (domain : String)
    (recentAnalyses : List EmailAnalysisSlim) : DetectedPatternRecord :=
  { patternName := "domain_campaign_" ++ domain
    patternType := "domain_campaign"
    patternCriteria := domainCampaignCriteria domain recentAnalyses
    matchCount := recentAnalyses.length
    isConfirmedThreat := decide (5 ≤ recentAnalyses.length)
    firstDetectedAt :=
      ((recentAnalyses.getLast?.bind (·.createdAt)).getD env.now)
    lastDetectedAt := env.now }

/-- The pattern a detected domain campaign returns. -/
def domainCampaignPattern (opts : PatternDetectionOptions) (domain : String)
    (recentAnalyses : List EmailAnalysisSlim) : DetectedPattern :=
  { type := "domain_campaign"
    name := "domain_campaign_" ++ domain
    description := "Domain-based phishing campaign from " ++ domain
    criteria := domainCampaignCriteria domain recentAnalyses
    matchCount := recentAnalyses.length
    isNew := recentAnalyses.length == opts.minMatchCount.getD 3 }

/-- `detectDomainCampaign` (pattern.detector.ts, lines 95-145). -/
def detectDomainCampaign (env : DetectorEnv)
    (opts : PatternDetectionOptions) (emailData : ExtractedEmailData) :
    Except String (Option DetectedPattern) × List DbOp :=
  match env.extractDomainFromEmail emailData.from_email with
  | none => (.ok none, [])
  | some domain =>
    if domain.isEmpty then (.ok none, []) else
    match env.search (domainCampaignFilters env opts domain) with
    | .error e => (.error e, [.searchOp (domainCampaignFilters env opts domain)])
    | .ok recentAnalyses =>
      if opts.minMatchCount.getD 3 ≤ recentAnalyses.length then
        match env.upsertPatternRes (domainCampaignRecord env domain recentAnalyses) with
        | .error e =>
          (.error e,
           [.searchOp (domainCampaignFilters env opts domain),
            .upsertPatternOp (domainCampaignRecord env domain recentAnalyses)])
        | .ok _ =>
          (.ok (some (domainCampaignPattern opts domain recentAnalyses)),
           [.searchOp (domainCampaignFilters env opts domain),
            .upsertPatternOp (domainCampaignRecord env domain recentAnalyses)])
      else (.ok none, [.searchOp (domainCampaignFilters env opts domain)])

/-- Fuel-indexed scanner for the global replace `/\s+/g → '_'` used in the
subject pattern name. -/
def wsToUnderscoreGo : Nat → List Char → List Char
  | _, [] => []
  | 0, l => l
  | fuel + 1, c :: rest =>
    if isWsChar c then '_' :: wsToUnderscoreGo fuel (dropWs rest)
    else c :: wsToUnderscoreGo fuel rest

/-- `phrase.replace(/\s+/g, '_')`. -/
def wsToUnderscore (s : String) : String := ⟨wsToUnderscoreGo s.data.length s.data⟩

/-- The filters of the subject-pattern search. -/
def subjectPatternFilters (env : DetectorEnv)
    (opts : PatternDetectionOptions) : AnalysisSearchFilters :=
  { isPhishing := some true
    fromDate := some (lookbackDate env opts)
    limit := some 500 }

/-- The recent analyses whose lowercased subject contains a key phrase. -/
def subjectPatternMatches (keyPhrases : List String)
    (recentAnalyses : List EmailAnalysisSlim) : List EmailAnalysisSlim :=
  recentAnalyses.filter fun analysis =>
    keyPhrases.any fun phrase =>
      strIncludes (toLowerStr analysis.subject) phrase

/-- The record a detected subject pattern upserts. -/
def subjectPatternRecord (env : DetectorEnv) (p0 : String)
    (keyPhrases : List String) (sampleSubject : String)
    (matchesFound : List EmailAnalysisSlim) : DetectedPatternRecord :=
  { patternName := "subject_pattern_" ++ wsToUnderscore p0
    patternType := "subject_pattern"
    patternCriteria :=
      PatternCriteria.subjectCrit keyPhrases matchesFound.length sampleSubject
    matchCount := matchesFound.length
    isConfirmedThreat := decide (5 ≤ matchesFound.length)
    firstDetectedAt := ((matchesFound.getLast?.bind (·.createdAt)).getD env.now)
    lastDetectedAt := env.now }

/-- The pattern a detected subject pattern returns. -/
def subjectPatternPattern (opts : PatternDetectionOptions) (p0 : String)
    (keyPhrases : List String) (sampleSubject : String)
    (matchesFound : List EmailAnalysisSlim) : DetectedPattern :=
  { type := "subject_pattern"
    name := "subject_pattern_" ++ wsToUnderscore p0
    description := "Subject line pattern: \"" ++ p0 ++ "\""
    criteria :=
      PatternCriteria.subjectCrit keyPhrases matchesFound.length sampleSubject
    matchCount := matchesFound.length
    isNew := matchesFound.length == opts.minMatchCount.getD 3 }

/-- `detectSubjectPattern` (pattern.detector.ts, lines 150-203). -/
def detectSubjectPattern (env : DetectorEnv)
    (opts : PatternDetectionOptions) (emailData : ExtractedEmailData) :
    Except String (Option DetectedPattern) × List DbOp :=
  match extractSubjectKeyPhrases env (toLowerStr emailData.subject) with
  | [] => (.ok none, [])
  | p0 :: ps =>
    match env.search (subjectPatternFilters env opts) with
    | .error e => (.error e, [.searchOp (subjectPatternFilters env opts)])
    | .ok recentAnalyses =>
      if opts.minMatchCount.getD 3 ≤
          (subjectPatternMatches (p0 :: ps) recentAnalyses).length then
        match env.upsertPatternRes
            (subjectPatternRecord env p0 (p0 :: ps) emailData.subject
              (subjectPatternMatches (p0 :: ps) recentAnalyses)) with
        | .error e =>
          (.error e,
           [.searchOp (subjectPatternFilters env opts),
            .upsertPatternOp
              (subjectPatternRecord env p0 (p0 :: ps) emailData.subject
                (subjectPatternMatches (p0 :: ps) recentAnalyses))])
        | .ok _ =>
          (.ok (some
            (subjectPatternPattern opts p0 (p0 :: ps) emailData.subject
              (subjectPatternMatches (p0 :: ps) recentAnalyses))),
           [.searchOp (subjectPatternFilters env opts),
            .upsertPatternOp
              (subjectPatternRecord env p0 (p0 :: ps) emailData.subject
                (subjectPatternMatches (p0 :: ps) recentAnalyses))])
      else (.ok none, [.searchOp (subjectPatternFilters env opts)])

/-- The filters of the impersonation search. -/
def impersonationFilters (env : DetectorEnv)
    (opts : PatternDetectionOptions) : AnalysisSearchFilters :=
  { isPhishing := some true
    fromDate := some (lookbackDate env opts)
    limit := some 200 }

/-- The recent analyses that look like impersonation attempts. -/
def impersonationMatches (recentAnalyses : List EmailAnalysisSlim) :
    List EmailAnalysisSlim :=
  recentAnalyses.filter fun a =>
    a.vipImpersonationDetected ||
    a.indicators.any fun i =>
      strIncludes (toLowerStr i) "impersonat" ||
      strIncludes (toLowerStr i) "spoof"

/-- The record a detected impersonation campaign upserts. -/
def impersonationRecord (env : DetectorEnv) (analysis : AnalysisResult)
    (found : List EmailAnalysisSlim) : DetectedPatternRecord :=
  { patternName := "impersonation_campaign"
    patternType := "impersonation"
    patternCriteria := PatternCriteria.impersonationCrit found.length
      (analysis.indicators.take 3)
    matchCount := found.length
    isConfirmedThreat := true
    firstDetectedAt := ((found.getLast?.bind (·.createdAt)).getD env.now)
    lastDetectedAt := env.now }

/-- The pattern a detected impersonation campaign returns. -/
def impersonationPattern (opts : PatternDetectionOptions)
    (analysis : AnalysisResult) (found : List EmailAnalysisSlim) :
    DetectedPattern :=
  { type := "impersonation"
    name := "impersonation_campaign"
    description := "Active impersonation campaign detected"
    criteria := PatternCriteria.impersonationCrit found.length
      (analysis.indicators.take 3)
    matchCount := found.length
    isNew := found.length == opts.minMatchCount.getD 3 }

/-- `detectImpersonationPattern` (pattern.detector.ts, lines 208-269). -/
def detectImpersonationPattern (env : DetectorEnv)
    (opts : PatternDetectionOptions) (analysis : AnalysisResult) :
    Except String (Option DetectedPattern) × List DbOp :=
  let hasImpersonationIndicator := analysis.indicators.any fun indicator =>
    strIncludes (toLowerStr indicator) "impersonat" ||
    strIncludes (toLowerStr indicator) "spoof" ||
    strIncludes (toLowerStr indicator) "pretend"
  if !hasImpersonationIndicator then (.ok none, [])
  else
    match env.search (impersonationFilters env opts) with
    | .error e => (.error e, [.searchOp (impersonationFilters env opts)])
    | .ok recentAnalyses =>
      if opts.minMatchCount.getD 3 ≤
          (impersonationMatches recentAnalyses).length then
        match env.upsertPatternRes
            (impersonationRecord env analysis
              (impersonationMatches recentAnalyses)) with
        | .error e =>
          (.error e,
           [.searchOp (impersonationFilters env opts),
            .upsertPatternOp
              (impersonationRecord env analysis
                (impersonationMatches recentAnalyses))])
        | .ok _ =>
          (.ok (some
            (impersonationPattern opts analysis
              (impersonationMatches recentAnalyses))),
           [.searchOp (impersonationFilters env opts),
            .upsertPatternOp
              (impersonationRecord env analysis
                (impersonationMatches recentAnalyses))])
      else (.ok none, [.searchOp (impersonationFilters env opts)])

/-- `.` to `_` in the url-campaign pattern name (`replace(/\./g, '_')`). -/
def dotsToUnderscore (s : String) : String :=
  ⟨s.data.map fun c => if c = '.' then '_' else c⟩

/-- The filters of the url-campaign search. -/
def urlCampaignFilters (env : DetectorEnv)
    (opts : PatternDetectionOptions) : AnalysisSearchFilters :=
  { isPhishing := some true
    fromDate := some (lookbackDate env opts)
    limit := some 300 }

/-- The recent analyses one of whose stored indicator strings mentions a
URL whose host is among the current email's link hosts. -/
def urlPatternMatchesOf (env : DetectorEnv) (domainsList : List String)
    (recentAnalyses : List EmailAnalysisSlim) : List EmailAnalysisSlim :=
  recentAnalyses.filter fun a =>
    a.indicators.any fun i =>
      match env.urlIndicatorDomain i with
      | some domain => domainsList.contains (toLowerStr domain)
      | none => false

/-- The record a detected url campaign upserts. -/
def urlCampaignRecord (env : DetectorEnv) (d0 : String)
    (domainsList : List String) (found : List EmailAnalysisSlim) :
    DetectedPatternRecord :=
  { patternName := "url_campaign_" ++ dotsToUnderscore d0
    patternType := "url_campaign"
    patternCriteria := PatternCriteria.urlCrit domainsList found.length
    matchCount := found.length
    isConfirmedThreat := decide (5 ≤ found.length)
    firstDetectedAt := ((found.getLast?.bind (·.createdAt)).getD env.now)
    lastDetectedAt := env.now }

/-- The pattern a detected url campaign returns. -/
def urlCampaignPattern (opts : PatternDetectionOptions) (d0 : String)
    (domainsList : List String) (found : List EmailAnalysisSlim) :
    DetectedPattern :=
  { type := "url_campaign"
    name := "url_campaign_" ++ dotsToUnderscore d0
    description := "URL-based campaign using domains: " ++
      String.intercalate ", " domainsList
    criteria := PatternCriteria.urlCrit domainsList found.length
    matchCount := found.length
    isNew := found.length == opts.minMatchCount.getD 3 }

/-- `detectUrlPatternCampaign` (pattern.detector.ts, lines 274-344). -/
def detectUrlPatternCampaign (env : DetectorEnv)
    (opts : PatternDetectionOptions) (emailData : ExtractedEmailData) :
    Except String (Option DetectedPattern) × List DbOp :=
  if emailData.links.isEmpty then (.ok none, [])
  else
    let urlDomains := dedupFirst
      (emailData.links.filterMap fun link =>
        (env.urlHostname link).map toLowerStr)
    match urlDomains with
    | [] => (.ok none, [])
    | d0 :: ds =>
      match env.search (urlCampaignFilters env opts) with
      | .error e => (.error e, [.searchOp (urlCampaignFilters env opts)])
      | .ok recentAnalyses =>
        if opts.minMatchCount.getD 3 ≤
            (urlPatternMatchesOf env (d0 :: ds) recentAnalyses).length then
          match env.upsertPatternRes
              (urlCampaignRecord env d0 (d0 :: ds)
                (urlPatternMatchesOf env (d0 :: ds) recentAnalyses)) with
          | .error e =>
            (.error e,
             [.searchOp (urlCampaignFilters env opts),
              .upsertPatternOp
                (urlCampaignRecord env d0 (d0 :: ds)
                  (urlPatternMatchesOf env (d0 :: ds) recentAnalyses))])
          | .ok _ =>
            (.ok (some
              (urlCampaignPattern opts d0 (d0 :: ds)
                (urlPatternMatchesOf env (d0 :: ds) recentAnalyses))),
             [.searchOp (urlCampaignFilters env opts),
              .upsertPatternOp
                (urlCampaignRecord env d0 (d0 :: ds)
                  (urlPatternMatchesOf env (d0 :: ds) recentAnalyses))])
        else (.ok none, [.searchOp (urlCampaignFilters env opts)])

/-- `detectPatterns` (pattern.detector.ts, lines 50-90): nothing happens
for a non-phishing verdict; otherwise the four detectors run in order, each
appending its pattern when it fires; a thrown store error propagates (there
is no catch in this service). -/
def detectPatterns (env : DetectorEnv) (opts : PatternDetectionOptions)
    (emailData : ExtractedEmailData) (analysis : AnalysisResult) :
    Except String (List DetectedPattern) × List DbOp :=
  if !analysis.isPhishing then (.ok [], [])
  else
    match detectDomainCampaign env opts emailData with
    | (.error e, t1) => (.error e, t1)
    | (.ok o1, t1) =>
      match detectSubjectPattern env opts emailData with
      | (.error e, t2) => (.error e, t1 ++ t2)
      | (.ok o2, t2) =>
        match detectImpersonationPattern env opts analysis with
        | (.error e, t3) => (.error e, t1 ++ t2 ++ t3)
        | (.ok o3, t3) =>
          match detectUrlPatternCampaign env opts emailData with
          | (.error e, t4) => (.error e, t1 ++ t2 ++ t3 ++ t4)
          | (.ok o4, t4) =>
            (.ok (o1.toList ++ o2.toList ++ o3.toList ++ o4.toList),
             t1 ++ t2 ++ t3 ++ t4)

/-- The slice of `CampaignAlertConfig` the service reads on this path. -/
structure CampaignAlertConfig where
  enabled : Bool
  distributionList : String
  senderEmail : String
deriving DecidableEq

/-- A full `campaigns` row as returned by `getCampaignDetails`. -/
structure CampaignRecord where
  id : String
  row : CampaignRow
deriving DecidableEq

/-- The outcomes of the store and notification calls one `processDetection`
invocation can make, each `Except` standing for return-or-throw:
`trackCampaignDetection`, `getCampaignDetails`, the SES `sendCampaignAlert`,
and `markCampaignAlerted`. -/
structure CampaignServiceEnv where
  track : Except String (Option CampaignMatch)
  details : Except String (Option CampaignRecord)
  sendAlert : Except String Unit
  mark : Except String Unit

/-- `processDetection` (campaign.service.ts, lines 35-87): config gate,
high/critical eligibility gate, then the tracked-campaign workflow inside a
try/catch whose catch logs and returns `false`. -/
def processDetection (config : CampaignAlertConfig)
    (env : CampaignServiceEnv) (riskLevel : RiskLevel) :
    Except String Bool :=
  if !config.enabled then .ok false
  else if !(riskLevel == .high || riskLevel == .critical) then .ok false
  else
    match env.track with
    | .error _ => .ok false
    | .ok none => .ok false
    | .ok (some m) =>
      if m.shouldAlert then
        match env.details with
        | .error _ => .ok false
        | .ok none => .ok false
        | .ok (some _) =>
          match env.sendAlert with
          | .error _ => .ok false
          | .ok _ =>
            match env.mark with
            | .error _ => .ok false
            | .ok _ => .ok true
      else .ok false

/-! ## Spec-side definitions

These definitions follow the words of the specification (not the source),
for comparison against the source-derived definitions above. -/

/-- Modelled from the spec's words for the subject normalization: strip
*leading* `re:`/`fw:`/`fwd:` markers (and only leading ones), repeatedly,
each with the whitespace following it. -/
def stripLeadingMarkersGo : Nat → List Char → List Char
  | 0, l => l
  | fuel + 1, l =>
    if "re:".data.isPrefixOf l then stripLeadingMarkersGo fuel (dropWs (l.drop 3))
    else if "fw:".data.isPrefixOf l then stripLeadingMarkersGo fuel (dropWs (l.drop 3))
    else if "fwd:".data.isPrefixOf l then stripLeadingMarkersGo fuel (dropWs (l.drop 4))
    else l

/-- Leading-marker stripping, with enough fuel. -/
def stripLeadingMarkers (l : List Char) : List Char :=
  stripLeadingMarkersGo l.length l

/-- The subject normalization as the spec sentence words it: lowercase,
strip leading markers only, digit runs to one placeholder, strip
punctuation except the placeholder, collapse whitespace, truncate to 100
characters. -/
def specNormalizeLeading (s : String) : String :=
  ⟨(collapseWs (keepWordWsHash (digitsToHash
      (stripLeadingMarkers (lowerList s.data))))).take 100⟩

/-- "Replace every run of digits with a single placeholder token", written
independently of the source's scanner: a right fold whose state records
whether the output built so far starts inside a digit run. -/
def specDigitsToHash (l : List Char) : List Char :=
  (l.foldr
    (fun c acc =>
      if isDigitChar c then
        if acc.2 then (acc.1, true) else ('#' :: acc.1, true)
      else (c :: acc.1, false))
    (([] : List Char), false)).1

/-- "Collapse whitespace runs to single spaces", written independently of
the source's scanner, by the same right-fold scheme. -/
def specCollapseWs (l : List Char) : List Char :=
  (l.foldr
    (fun c acc =>
      if isWsChar c then
        if acc.2 then (acc.1, true) else (' ' :: acc.1, true)
      else (c :: acc.1, false))
    (([] : List Char), false)).1

/-- The subject normalization as the amended claim words it: lowercase,
remove every occurrence of a `re:`/`fw:`/`fwd:` marker (with the
whitespace run following it) anywhere in the string, replace digit runs by
one placeholder, strip punctuation other than the placeholder, collapse
whitespace runs to single spaces, trim, truncate to 100 characters. -/
def specNormalizeAmended (s : String) : String :=
  ⟨(trimWs (specCollapseWs (keepWordWsHash (specDigitsToHash
      (stripAll "fwd:".data (stripAll "fw:".data (stripAll "re:".data
        (s.data.map lowerChar)))))))).take 100⟩

/-! ## Support predicates for the normalization proofs -/

/-- Characters that can appear in a normalized subject: lowercase ASCII
letters, underscore, the placeholder and the space. -/
def goodChar (c : Char) : Bool :=
  isLowerChar c || c = '_' || c = '#' || c = ' '

/-- No two adjacent spaces. -/
def noAdjSpace : List Char → Bool
  | [] => true
  | [_] => true
  | a :: b :: t => !(a = ' ' && b = ' ') && noAdjSpace (b :: t)

/-! # Theorems -/

/-! ## Association-list store lemmas -/

theorem lookupAssoc_upsertAssoc_self {α β : Type} [DecidableEq α]
    (k : α) (v : β) (s : List (α × β)) :
    lookupAssoc k (upsertAssoc k v s) = some v := by
  induction s with
  | nil => simp [upsertAssoc, lookupAssoc]
  | cons kv rest ih =>
    obtain ⟨k0, v0⟩ := kv
    by_cases h : k0 = k <;> simp [upsertAssoc, lookupAssoc, h, ih]

theorem lookupAssoc_eq_none_of_countKey_zero {α β : Type} [DecidableEq α]
    (k : α) (s : List (α × β)) (h : countKey k s = 0) :
    lookupAssoc k s = none := by
  induction s with
  | nil => simp [lookupAssoc]
  | cons kv rest ih =>
    obtain ⟨k0, v0⟩ := kv
    by_cases hk : k0 = k
    · simp [countKey, hk] at h
    · simp only [countKey, List.filter] at h ih ⊢
      simp [lookupAssoc, hk]
      exact ih (by simpa [hk] using h)

theorem countKey_upsertAssoc_self {α β : Type} [DecidableEq α]
    (k : α) (v : β) (s : List (α × β)) :
    countKey k (upsertAssoc k v s) = max (countKey k s) 1 := by
  induction s with
  | nil => simp [upsertAssoc, countKey]
  | cons kv rest ih =>
    obtain ⟨k0, v0⟩ := kv
    by_cases h : k0 = k
    · subst h
      simp [upsertAssoc, countKey, List.filter]
    · simp [upsertAssoc, countKey, List.filter, h] at ih ⊢
      exact ih


/-- C1: the `shouldAlert` flag returned by `trackCampaignDetection` is true if
and only if all five clauses hold on the post-update state: detectionCount is
at least 3, uniqueRecipientCount is at least 2, at most 4 hours have passed
since the campaign's firstSeenAt, the call's riskLevel is high or critical,
and either no alertSentAt is recorded or more than 24 hours have passed since
it. An iff over arbitrary inputs entails that flipping any single clause flips
the decision. -/
theorem C1_shouldAlert_iff
    (now : Int) (store : CampaignStore)
    (senderDomain subject recipientEmail : String)
    (riskLevel : RiskLevel) (indicators : List String) :
    (trackCampaignDetection now store senderDomain subject recipientEmail
        riskLevel indicators).2.shouldAlert = true ↔
      (3 ≤ (trackCampaignDetection now store senderDomain subject
              recipientEmail riskLevel indicators).2.detectionCount ∧
       2 ≤ (trackCampaignDetection now store senderDomain subject
              recipientEmail riskLevel indicators).2.uniqueRecipientCount ∧
       (trackCampaignDetection now store senderDomain subject recipientEmail
          riskLevel indicators).2.hoursActive ≤ 4 ∧
       (riskLevel = .high ∨ riskLevel = .critical) ∧
       ((trackCampaignDetection now store senderDomain subject recipientEmail
           riskLevel indicators).2.alertSentAt = none ∨
        ∃ t, (trackCampaignDetection now store senderDomain subject
                recipientEmail riskLevel indicators).2.alertSentAt = some t ∧
          (24 * 60 * 60 * 1000 : Int) < now - t)) := by
  unfold trackCampaignDetection
  cases hl : lookupAssoc (campaignSignature senderDomain subject) store with
  | none =>
    simp only [hl]
    simp [Bool.and_eq_true, decide_eq_true_eq, Bool.or_eq_true, beq_iff_eq]
  | some old =>
    cases ha : old.alertSentAt with
    | none =>
      simp only [hl, ha]
      simp [Bool.and_eq_true, decide_eq_true_eq, Bool.or_eq_true, beq_iff_eq]
      tauto
    | some t0 =>
      simp only [hl, ha]
      simp [Bool.and_eq_true, decide_eq_true_eq, Bool.or_eq_true, beq_iff_eq]
      tauto


/-- C10: whenever the analysis's `isPhishing` flag is false, `detectPatterns`
returns the empty pattern list and the empty store-operation trace: it
performs no search and no pattern upsert, leaving the patterns table
unchanged. -/
theorem C10_detectPatterns_nonphishing_noop
    (env : DetectorEnv) (opts : PatternDetectionOptions)
    (emailData : ExtractedEmailData) (analysis : AnalysisResult)
    (h : analysis.isPhishing = false) :
    detectPatterns env opts emailData analysis = (.ok [], []) := by
  unfold detectPatterns
  rw [h]
  rfl

theorem C10_witness :
    detectPatterns
      { now := 0
        search := fun _ => .ok []
        upsertPatternRes := fun _ => .ok ()
        extractDomainFromEmail := fun _ => none
        urlHostname := fun _ => none
        phraseMatchers := []
        urlIndicatorDomain := fun _ => none }
      {} { from_email := "a@b.c", subject := "s", text := "t", html := "h",
           links := [] }
      { summary := "", isPhishing := false, confidence := "High",
        indicators := [], recommendations := [] } = (.ok [], []) :=
  C10_detectPatterns_nonphishing_noop _ _ _ _ rfl

/-- C8 (amended): the Campaign Alert Service never propagates a failure to
the caller: `processDetection` never returns an error, and whenever any of
its store or notification calls fails — the campaign tracking, the
campaign-details lookup, the notification send, or the alert recording —
it returns false. The Pattern Detector has no such guard: a store search
failure inside any of its four detectors (domain campaign, subject pattern,
impersonation, url campaign) propagates out of `detectPatterns` as an error
to the caller, contrary to the claim's wording for that service. -/
theorem C8_amended_error_handling :
    (∀ (config : CampaignAlertConfig) (env : CampaignServiceEnv)
       (riskLevel : RiskLevel),
       (∀ e, processDetection config env riskLevel ≠ .error e) ∧
       (((∃ e, env.track = .error e) ∨ (∃ e, env.details = .error e) ∨
         (∃ e, env.sendAlert = .error e) ∨ (∃ e, env.mark = .error e)) →
        processDetection config env riskLevel = .ok false)) ∧
    (∀ (env : DetectorEnv) (opts : PatternDetectionOptions)
       (emailData : ExtractedEmailData) (analysis : AnalysisResult)
       (domain e : String),
       analysis.isPhishing = true →
       env.extractDomainFromEmail emailData.from_email = some domain →
       domain.isEmpty = false →
       env.search (domainCampaignFilters env opts domain) = .error e →
       (detectPatterns env opts emailData analysis).1 = .error e) ∧
    (∀ (env : DetectorEnv) (opts : PatternDetectionOptions)
       (emailData : ExtractedEmailData) (analysis : AnalysisResult)
       (o1 : Option DetectedPattern) (t1 : List DbOp)
       (p0 : String) (ps : List String) (e : String),
       analysis.isPhishing = true →
       detectDomainCampaign env opts emailData = (.ok o1, t1) →
       extractSubjectKeyPhrases env (toLowerStr emailData.subject) = p0 :: ps →
       env.search (subjectPatternFilters env opts) = .error e →
       (detectPatterns env opts emailData analysis).1 = .error e) ∧
    (∀ (env : DetectorEnv) (opts : PatternDetectionOptions)
       (emailData : ExtractedEmailData) (analysis : AnalysisResult)
       (o1 : Option DetectedPattern) (t1 : List DbOp)
       (o2 : Option DetectedPattern) (t2 : List DbOp) (e : String),
       analysis.isPhishing = true →
       detectDomainCampaign env opts emailData = (.ok o1, t1) →
       detectSubjectPattern env opts emailData = (.ok o2, t2) →
       (analysis.indicators.any fun indicator =>
         strIncludes (toLowerStr indicator) "impersonat" ||
         strIncludes (toLowerStr indicator) "spoof" ||
         strIncludes (toLowerStr indicator) "pretend") = true →
       env.search (impersonationFilters env opts) = .error e →
       (detectPatterns env opts emailData analysis).1 = .error e) ∧
    (∀ (env : DetectorEnv) (opts : PatternDetectionOptions)
       (emailData : ExtractedEmailData) (analysis : AnalysisResult)
       (o1 : Option DetectedPattern) (t1 : List DbOp)
       (o2 : Option DetectedPattern) (t2 : List DbOp)
       (o3 : Option DetectedPattern) (t3 : List DbOp)
       (d0 : String) (ds : List String) (e : String),
       analysis.isPhishing = true →
       detectDomainCampaign env opts emailData = (.ok o1, t1) →
       detectSubjectPattern env opts emailData = (.ok o2, t2) →
       detectImpersonationPattern env opts analysis = (.ok o3, t3) →
       emailData.links.isEmpty = false →
       dedupFirst (emailData.links.filterMap fun link =>
         (env.urlHostname link).map toLowerStr) = d0 :: ds →
       env.search (urlCampaignFilters env opts) = .error e →
       (detectPatterns env opts emailData analysis).1 = .error e) := by
  refine ⟨?_, ?_, ?_, ?_, ?_⟩
  · intro config env riskLevel
    constructor
    · intro e
      unfold processDetection
      repeat' split
      all_goals simp
    · intro hfail
      unfold processDetection
      repeat' split
      all_goals first
        | rfl
        | (rcases hfail with ⟨e, he⟩ | ⟨e, he⟩ | ⟨e, he⟩ | ⟨e, he⟩ <;> simp_all)
  · intro env opts emailData analysis domain e hphish hdom hempty hsearch
    unfold detectPatterns detectDomainCampaign
    rw [hphish]
    simp only [hdom, hempty, hsearch]
    rfl
  · intro env opts emailData analysis o1 t1 p0 ps e hphish hdd hphr hsearch
    unfold detectPatterns detectSubjectPattern
    rw [hphish]
    simp only [hdd, hphr, hsearch]
    rfl
  · intro env opts emailData analysis o1 t1 o2 t2 e
      hphish hdd hds himp hsearch
    unfold detectPatterns detectImpersonationPattern
    rw [hphish]
    simp only [hdd, hds, himp, hsearch]
    rfl
  · intro env opts emailData analysis o1 t1 o2 t2 o3 t3 d0 ds e
      hphish hdd hds hdi hlinks hdoms hsearch
    unfold detectPatterns detectUrlPatternCampaign
    rw [hphish]
    simp only [hdd, hds, hdi, hlinks, hdoms, hsearch]
    rfl


/-- C8 counterexample: a concrete phishing analysis and an environment whose
store search fails make `detectPatterns` return an error to the caller, so
the Pattern Detector does not swallow store failures as the claim states. -/
theorem C8_counterexample :
    (detectPatterns
      { now := 0
        search := fun _ => .error "store down"
        upsertPatternRes := fun _ => .ok ()
        extractDomainFromEmail := fun _ => some "evil.example"
        urlHostname := fun _ => none
        phraseMatchers := []
        urlIndicatorDomain := fun _ => none }
      {} { from_email := "x@evil.example", subject := "s", text := "t",
           html := "h", links := [] }
      { summary := "", isPhishing := true, confidence := "High",
        indicators := [], recommendations := [] }).1 = .error "store down" := by
  rfl

/-- C8 witness: the amended theorem applied to concrete inputs — a service
environment whose campaign-tracking call fails makes `processDetection`
return false, and four detector environments whose store search fails on
the domain-campaign, subject-pattern, impersonation and url-campaign
searches respectively each make `detectPatterns` return that error. -/
theorem C8_witness :
    processDetection
      { enabled := true, distributionList := "sec@corp.example",
        senderEmail := "phishy@corp.example" }
      { track := .error "db down", details := .ok none,
        sendAlert := .ok (), mark := .ok () } .high = .ok false ∧
    (detectPatterns
      { now := 0
        search := fun _ => .error "boom1"
        upsertPatternRes := fun _ => .ok ()
        extractDomainFromEmail := fun _ => some "evil.example"
        urlHostname := fun _ => none
        phraseMatchers := []
        urlIndicatorDomain := fun _ => none }
      {} { from_email := "x@evil.example", subject := "s", text := "t",
           html := "h", links := [] }
      { summary := "", isPhishing := true, confidence := "High",
        indicators := [], recommendations := [] }).1 = .error "boom1" ∧
    (detectPatterns
      { now := 0
        search := fun _ => .error "boom2"
        upsertPatternRes := fun _ => .ok ()
        extractDomainFromEmail := fun _ => none
        urlHostname := fun _ => none
        phraseMatchers := [fun _ => ["urgent"]]
        urlIndicatorDomain := fun _ => none }
      {} { from_email := "x@evil.example", subject := "Urgent notice",
           text := "t", html := "h", links := [] }
      { summary := "", isPhishing := true, confidence := "High",
        indicators := [], recommendations := [] }).1 = .error "boom2" ∧
    (detectPatterns
      { now := 0
        search := fun _ => .error "boom3"
        upsertPatternRes := fun _ => .ok ()
        extractDomainFromEmail := fun _ => none
        urlHostname := fun _ => none
        phraseMatchers := []
        urlIndicatorDomain := fun _ => none }
      {} { from_email := "x@evil.example", subject := "s", text := "t",
           html := "h", links := [] }
      { summary := "", isPhishing := true, confidence := "High",
        indicators := ["Spoofed sender address"],
        recommendations := [] }).1 = .error "boom3" ∧
    (detectPatterns
      { now := 0
        search := fun _ => .error "boom4"
        upsertPatternRes := fun _ => .ok ()
        extractDomainFromEmail := fun _ => none
        urlHostname := fun _ => some "bad.example"
        phraseMatchers := []
        urlIndicatorDomain := fun _ => none }
      {} { from_email := "x@evil.example", subject := "s", text := "t",
           html := "h", links := ["http://bad.example/x"] }
      { summary := "", isPhishing := true, confidence := "High",
        indicators := [], recommendations := [] }).1 = .error "boom4" :=
  ⟨(C8_amended_error_handling.1 _ _ _).2 (Or.inl ⟨"db down", rfl⟩),
   C8_amended_error_handling.2.1 _ {} _ _ "evil.example" "boom1"
     rfl rfl rfl rfl,
   C8_amended_error_handling.2.2.1 _ {} _ _ none [] "urgent" [] "boom2"
     rfl rfl rfl rfl,
   C8_amended_error_handling.2.2.2.1 _ {} _ _ none [] none [] "boom3"
     rfl rfl rfl rfl rfl,
   C8_amended_error_handling.2.2.2.2 _ {} _ _ none [] none [] none []
     "bad.example" [] "boom4" rfl rfl rfl rfl rfl rfl rfl⟩

/-- C6 (amended): `determineSeverity` assigns critical when the verdict is
phishing and the confidence string contains \"very high\" or equals \"high\"
after lowercasing (so \"high\" maps to critical, not high as claimed); high
when phishing and the lowercased confidence equals \"medium\" or contains
\"moderate\" (not medium as claimed); medium for any other phishing verdict;
and low whenever the verdict is not phishing. -/
theorem C6_amended_severity (analysis : AnalysisResult) :
    (analysis.isPhishing = false → determineSeverity analysis = .low) ∧
    (analysis.isPhishing = true →
      ((strIncludes (toLowerStr analysis.confidence) "very high" = true ∨
        toLowerStr analysis.confidence = "high") →
        determineSeverity analysis = .critical) ∧
      (strIncludes (toLowerStr analysis.confidence) "very high" = false →
       toLowerStr analysis.confidence ≠ "high" →
       (toLowerStr analysis.confidence = "medium" ∨
        strIncludes (toLowerStr analysis.confidence) "moderate" = true) →
        determineSeverity analysis = .high) ∧
      (strIncludes (toLowerStr analysis.confidence) "very high" = false →
       toLowerStr analysis.confidence ≠ "high" →
       toLowerStr analysis.confidence ≠ "medium" →
       strIncludes (toLowerStr analysis.confidence) "moderate" = false →
        determineSeverity analysis = .medium)) := by
  refine ⟨fun h => by simp [determineSeverity, h], fun h => ⟨?_, ?_, ?_⟩⟩
  · intro hc
    unfold determineSeverity
    rcases hc with hc | hc
    · simp [h, hc]
    · rw [hc, h]
      decide
  · intro h1 h2 h3
    unfold determineSeverity
    rcases h3 with h3 | h3
    · rw [h3, h]
      decide
    · simp [h, h1, h2, h3, beq_iff_eq]
  · intro h1 h2 h3 h4
    unfold determineSeverity
    simp [h, h1, h2, h3, h4, beq_iff_eq]

/-- C6 counterexample: a phishing verdict with confidence \"High\" is assigned
critical, where the claim says high. -/
theorem C6_counterexample :
    determineSeverity
      { summary := "", isPhishing := true, confidence := "High",
        indicators := [], recommendations := [] } = .critical ∧
    RiskLevel.critical ≠ RiskLevel.high := by
  decide

/-- C6 witness: the amended theorem applied to concrete verdicts exercising
the critical, high, medium and low branches. -/
theorem C6_witness :
    determineSeverity
      { summary := "", isPhishing := true, confidence := "Very High",
        indicators := [], recommendations := [] } = .critical :=
  ((C6_amended_severity _).2 rfl).1 (Or.inl (by decide))


theorem upsertSeverityCase_eq_riskMax (a b : RiskLevel) :
    upsertSeverityCase a b = riskMax a b := by
  cases a <;> cases b <;> rfl

theorem riskMax_comm (a b : RiskLevel) : riskMax a b = riskMax b a := by
  cases a <;> cases b <;> rfl

theorem upsertIndicator_of_lookup_none (now : Int) (s : IndicatorStore)
    (i : ThreatIndicatorRecord)
    (h : lookupAssoc
      (i.indicatorType, hashIndicator i.indicatorType i.indicatorValue) s =
      none) :
    upsertIndicator now s i =
      upsertAssoc (i.indicatorType, hashIndicator i.indicatorType i.indicatorValue)
        { i with indicatorHash := hashIndicator i.indicatorType i.indicatorValue }
        s := by
  unfold upsertIndicator
  simp only [h]

theorem upsertIndicator_of_lookup_some (now : Int) (s : IndicatorStore)
    (i old : ThreatIndicatorRecord)
    (h : lookupAssoc
      (i.indicatorType, hashIndicator i.indicatorType i.indicatorValue) s =
      some old) :
    upsertIndicator now s i =
      upsertAssoc (i.indicatorType, hashIndicator i.indicatorType i.indicatorValue)
        { old with
          timesSeen := old.timesSeen + 1
          lastSeenAt := now
          confidenceScore := max old.confidenceScore i.confidenceScore
          severity := upsertSeverityCase i.severity old.severity }
        s := by
  unfold upsertIndicator
  simp only [h]

/-- C2: for two threat indicators with identical type and identical lowercase
value, where the key is not yet in the store and the first indicator carries
timesSeen 1 (as every freshly-extracted candidate does), calling
`upsertIndicator` once with each leaves exactly one row for that key, with
timesSeen 2, confidenceScore the maximum of the two scores, and severity the
worse of the two severities under critical > high > medium > low. -/
theorem C2_upsertIndicator_merge
    (now1 now2 : Int) (store : IndicatorStore)
    (i1 i2 : ThreatIndicatorRecord)
    (htype : i1.indicatorType = i2.indicatorType)
    (hval : toLowerStr i1.indicatorValue = toLowerStr i2.indicatorValue)
    (hseen : i1.timesSeen = 1)
    (hfresh : countKey
      (i1.indicatorType, hashIndicator i1.indicatorType i1.indicatorValue)
      store = 0) :
    countKey (i1.indicatorType, hashIndicator i1.indicatorType i1.indicatorValue)
      (upsertIndicator now2 (upsertIndicator now1 store i1) i2) = 1 ∧
    (lookupAssoc
        (i1.indicatorType, hashIndicator i1.indicatorType i1.indicatorValue)
        (upsertIndicator now2 (upsertIndicator now1 store i1) i2)).map
      ThreatIndicatorRecord.timesSeen = some 2 ∧
    (lookupAssoc
        (i1.indicatorType, hashIndicator i1.indicatorType i1.indicatorValue)
        (upsertIndicator now2 (upsertIndicator now1 store i1) i2)).map
      ThreatIndicatorRecord.confidenceScore =
        some (max i1.confidenceScore i2.confidenceScore) ∧
    (lookupAssoc
        (i1.indicatorType, hashIndicator i1.indicatorType i1.indicatorValue)
        (upsertIndicator now2 (upsertIndicator now1 store i1) i2)).map
      ThreatIndicatorRecord.severity =
        some (riskMax i1.severity i2.severity) := by
  have hhash : hashIndicator i2.indicatorType i2.indicatorValue =
      hashIndicator i1.indicatorType i1.indicatorValue := by
    unfold hashIndicator
    rw [htype, hval]
  have h1 := upsertIndicator_of_lookup_none now1 store i1
    (lookupAssoc_eq_none_of_countKey_zero _ _ hfresh)
  have hlook1 : lookupAssoc
      (i2.indicatorType, hashIndicator i2.indicatorType i2.indicatorValue)
      (upsertIndicator now1 store i1) =
      some { i1 with indicatorHash :=
        hashIndicator i1.indicatorType i1.indicatorValue } := by
    rw [hhash, ← htype, h1, lookupAssoc_upsertAssoc_self]
  have h2 := upsertIndicator_of_lookup_some now2
    (upsertIndicator now1 store i1) i2 _ hlook1
  rw [h2, hhash, ← htype]
  refine ⟨?_, ?_, ?_, ?_⟩
  · rw [countKey_upsertAssoc_self, h1, countKey_upsertAssoc_self, hfresh]
    rfl
  · rw [lookupAssoc_upsertAssoc_self]
    simp [hseen]
  · rw [lookupAssoc_upsertAssoc_self]
    simp
  · rw [lookupAssoc_upsertAssoc_self]
    simp [upsertSeverityCase_eq_riskMax, riskMax_comm]

/-- C2 witness: the theorem applied to two concrete indicators sharing the
key (domain, \"evil.example\") with differing case, confidence and severity. -/
theorem C2_witness :
    countKey (IndicatorType.domain, hashIndicator .domain "Evil.COM")
      (upsertIndicator 2000
        (upsertIndicator 1000 []
          { indicatorType := .domain, indicatorValue := "Evil.COM",
            indicatorHash := "", confidenceScore := 0.5,
            severity := .medium, timesSeen := 1, firstSeenAt := 0,
            lastSeenAt := 0, isActive := true, expiresAt := none,
            metadata := none })
        { indicatorType := .domain, indicatorValue := "evil.com",
          indicatorHash := "", confidenceScore := 0.7,
          severity := .low, timesSeen := 1, firstSeenAt := 500,
          lastSeenAt := 500, isActive := true, expiresAt := none,
          metadata := none }) = 1 ∧
    (lookupAssoc (IndicatorType.domain, hashIndicator .domain "Evil.COM")
      (upsertIndicator 2000
        (upsertIndicator 1000 []
          { indicatorType := .domain, indicatorValue := "Evil.COM",
            indicatorHash := "", confidenceScore := 0.5,
            severity := .medium, timesSeen := 1, firstSeenAt := 0,
            lastSeenAt := 0, isActive := true, expiresAt := none,
            metadata := none })
        { indicatorType := .domain, indicatorValue := "evil.com",
          indicatorHash := "", confidenceScore := 0.7,
          severity := .low, timesSeen := 1, firstSeenAt := 500,
          lastSeenAt := 500, isActive := true, expiresAt := none,
          metadata := none })).map ThreatIndicatorRecord.timesSeen = some 2 ∧
    (lookupAssoc (IndicatorType.domain, hashIndicator .domain "Evil.COM")
      (upsertIndicator 2000
        (upsertIndicator 1000 []
          { indicatorType := .domain, indicatorValue := "Evil.COM",
            indicatorHash := "", confidenceScore := 0.5,
            severity := .medium, timesSeen := 1, firstSeenAt := 0,
            lastSeenAt := 0, isActive := true, expiresAt := none,
            metadata := none })
        { indicatorType := .domain, indicatorValue := "evil.com",
          indicatorHash := "", confidenceScore := 0.7,
          severity := .low, timesSeen := 1, firstSeenAt := 500,
          lastSeenAt := 500, isActive := true, expiresAt := none,
          metadata := none })).map ThreatIndicatorRecord.confidenceScore =
      some (max 0.5 0.7) ∧
    (lookupAssoc (IndicatorType.domain, hashIndicator .domain "Evil.COM")
      (upsertIndicator 2000
        (upsertIndicator 1000 []
          { indicatorType := .domain, indicatorValue := "Evil.COM",
            indicatorHash := "", confidenceScore := 0.5,
            severity := .medium, timesSeen := 1, firstSeenAt := 0,
            lastSeenAt := 0, isActive := true, expiresAt := none,
            metadata := none })
        { indicatorType := .domain, indicatorValue := "evil.com",
          indicatorHash := "", confidenceScore := 0.7,
          severity := .low, timesSeen := 1, firstSeenAt := 500,
          lastSeenAt := 500, isActive := true, expiresAt := none,
          metadata := none })).map ThreatIndicatorRecord.severity =
      some (riskMax .medium .low) :=
  C2_upsertIndicator_merge 1000 2000 []
    { indicatorType := .domain, indicatorValue := "Evil.COM",
      indicatorHash := "", confidenceScore := 0.5,
      severity := .medium, timesSeen := 1, firstSeenAt := 0,
      lastSeenAt := 0, isActive := true, expiresAt := none,
      metadata := none }
    { indicatorType := .domain, indicatorValue := "evil.com",
      indicatorHash := "", confidenceScore := 0.7,
      severity := .low, timesSeen := 1, firstSeenAt := 500,
      lastSeenAt := 500, isActive := true, expiresAt := none,
      metadata := none }
    rfl (by decide) rfl rfl



/-- C3 (amended): on a `trackCampaignDetection` call that updates an existing
campaign row, the computed signature depends only on (senderDomain, subject),
so it is identical across calls with the same inputs; detectionCount
increases by exactly 1; the recipient is appended to uniqueRecipients only
if not already present, so a duplicate-free set stays duplicate-free; and the
risk level becomes the worse of the old and new levels when either of them is
high or critical, but — contrary to the claim — stays at the old level when
both are medium or low, because the SQL CASE has no clause for medium. -/
theorem C3_amended_track_update
    (now : Int) (store : CampaignStore)
    (senderDomain subject recipientEmail : String)
    (riskLevel : RiskLevel) (indicators : List String) (old : CampaignRow)
    (hold : lookupAssoc (campaignSignature senderDomain subject) store =
      some old)
    (hnodup : old.uniqueRecipients.Nodup) :
    (trackCampaignDetection now store senderDomain subject recipientEmail
        riskLevel indicators).2.signature =
      campaignSignature senderDomain subject ∧
    (lookupAssoc (campaignSignature senderDomain subject)
        (trackCampaignDetection now store senderDomain subject recipientEmail
          riskLevel indicators).1).map CampaignRow.detectionCount =
      some (old.detectionCount + 1) ∧
    (lookupAssoc (campaignSignature senderDomain subject)
        (trackCampaignDetection now store senderDomain subject recipientEmail
          riskLevel indicators).1).map CampaignRow.uniqueRecipients =
      some (if toLowerStr recipientEmail ∈ old.uniqueRecipients then
              old.uniqueRecipients
            else old.uniqueRecipients ++ [toLowerStr recipientEmail]) ∧
    (if toLowerStr recipientEmail ∈ old.uniqueRecipients then
       old.uniqueRecipients
     else old.uniqueRecipients ++ [toLowerStr recipientEmail]).Nodup ∧
    (lookupAssoc (campaignSignature senderDomain subject)
        (trackCampaignDetection now store senderDomain subject recipientEmail
          riskLevel indicators).1).map CampaignRow.riskLevel =
      some (if riskLevel = .critical ∨ old.riskLevel = .critical ∨
               riskLevel = .high ∨ old.riskLevel = .high then
              riskMax old.riskLevel riskLevel
            else old.riskLevel) := by
  unfold trackCampaignDetection
  simp only [hold]
  refine ⟨trivial, ?_, ?_, ?_, ?_⟩
  · rw [lookupAssoc_upsertAssoc_self]
    rfl
  · rw [lookupAssoc_upsertAssoc_self]
    rfl
  · by_cases hmem : toLowerStr recipientEmail ∈ old.uniqueRecipients
    · simpa [if_pos hmem] using hnodup
    · simp only [if_neg hmem]
      simp [List.nodup_append, hnodup, hmem]
  · rw [lookupAssoc_upsertAssoc_self]
    cases riskLevel <;> cases hor : old.riskLevel <;> simp [hor] <;> decide

/-- C3 witness: the amended theorem applied to a store holding one concrete
campaign row, with a repeated recipient and a high-risk update. -/
theorem C3_witness :
    ((trackCampaignDetection 1000
        (trackCampaignDetection 0 [] "mal.example" "Invoice #1 Due" "a@corp.example"
          .high ["bad link"]).1
        "mal.example" "Invoice #2 Due" "b@corp.example" .high
        ["bad link"]).2.signature =
      campaignSignature "mal.example" "Invoice #2 Due") ∧
    (lookupAssoc (campaignSignature "mal.example" "Invoice #2 Due")
        (trackCampaignDetection 1000
          (trackCampaignDetection 0 [] "mal.example" "Invoice #1 Due"
            "a@corp.example" .high ["bad link"]).1
          "mal.example" "Invoice #2 Due" "b@corp.example" .high
          ["bad link"]).1).map CampaignRow.detectionCount = some 2 := by
  have h := C3_amended_track_update 1000
    (trackCampaignDetection 0 [] "mal.example" "Invoice #1 Due" "a@corp.example"
      .high ["bad link"]).1
    "mal.example" "Invoice #2 Due" "b@corp.example" .high ["bad link"]
    { senderDomain := "mal.example", subjectPattern := "invoice ## due",
      detectionCount := 1, uniqueRecipients := ["a@corp.example"],
      riskLevel := .high, sampleIndicators := ["bad link"],
      firstSeenAt := 0, lastSeenAt := 0, alertSentAt := none,
      isActive := true }
    (by decide) (by decide)
  exact ⟨h.1, h.2.1⟩

/-- C3 counterexample: updating a campaign whose stored risk is low with a
detection of risk medium leaves the risk at low, whereas the claimed
worse-of-the-two rule would raise it to medium. -/
theorem C3_counterexample :
    (lookupAssoc (campaignSignature "mal.example" "hello")
        (trackCampaignDetection 1000
          (trackCampaignDetection 0 [] "mal.example" "hello" "a@corp.example"
            .low []).1
          "mal.example" "hello" "b@corp.example" .medium []).1).map
      CampaignRow.riskLevel = some RiskLevel.low ∧
    riskMax RiskLevel.low RiskLevel.medium = RiskLevel.medium ∧
    RiskLevel.low ≠ RiskLevel.medium := by
  refine ⟨by decide, by decide, by decide⟩


/-- C7: for every email input and verdict and any thresholds a ≤ b, every
indicator returned by `extractIOCs` at minConfidence b is also returned at
minConfidence a: lowering the threshold never removes an indicator. -/
theorem C7_extractIOCs_minConfidence_superset
    (prims : TextPrims) (now : Int) (emailData : ExtractedEmailData)
    (analysis : AnalysisResult) (options : IOCExtractionOptions) (a b : ℚ)
    (hab : a ≤ b) :
    extractIOCs prims now emailData analysis
        { options with minConfidence := some b } ⊆
      extractIOCs prims now emailData analysis
        { options with minConfidence := some a } := by
  intro i hi
  unfold extractIOCs at hi ⊢
  simp only [List.mem_filter, decide_eq_true_eq] at hi ⊢
  exact ⟨hi.1, le_trans hab hi.2⟩

/-- C7 witness: the theorem applied at thresholds 0.2 ≤ 0.5 on a concrete
email with one URL, using concrete regex/URL primitives. -/
theorem C7_witness :
    extractIOCs
        { extractUrls := fun _ => ["http://phish.test/a"]
          urlHostname := fun _ => some "phish.test"
          matchIp := fun _ => []
          matchMd5 := fun _ => []
          matchSha1 := fun _ => []
          matchSha256 := fun _ => []
          suspiciousUrl := fun _ => false
          suspiciousDomain := fun _ => false
          suspiciousEmail := fun _ => false
          extractDomainFromEmail := fun _ => none }
        77
        { from_email := "x@phish.test", subject := "s", text := "t",
          html := "h", links := [] }
        { summary := "", isPhishing := true, confidence := "High",
          indicators := [], recommendations := [] }
        { extractDomains := some false, extractIPs := some false,
          extractHashes := some false, extractEmails := some false,
          minConfidence := some 0.5 } ⊆
      extractIOCs
        { extractUrls := fun _ => ["http://phish.test/a"]
          urlHostname := fun _ => some "phish.test"
          matchIp := fun _ => []
          matchMd5 := fun _ => []
          matchSha1 := fun _ => []
          matchSha256 := fun _ => []
          suspiciousUrl := fun _ => false
          suspiciousDomain := fun _ => false
          suspiciousEmail := fun _ => false
          extractDomainFromEmail := fun _ => none }
        77
        { from_email := "x@phish.test", subject := "s", text := "t",
          html := "h", links := [] }
        { summary := "", isPhishing := true, confidence := "High",
          indicators := [], recommendations := [] }
        { extractDomains := some false, extractIPs := some false,
          extractHashes := some false, extractEmails := some false,
          minConfidence := some 0.2 } :=
  C7_extractIOCs_minConfidence_superset
    { extractUrls := fun _ => ["http://phish.test/a"]
      urlHostname := fun _ => some "phish.test"
      matchIp := fun _ => []
      matchMd5 := fun _ => []
      matchSha1 := fun _ => []
      matchSha256 := fun _ => []
      suspiciousUrl := fun _ => false
      suspiciousDomain := fun _ => false
      suspiciousEmail := fun _ => false
      extractDomainFromEmail := fun _ => none }
    77
    { from_email := "x@phish.test", subject := "s", text := "t",
      html := "h", links := [] }
    { summary := "", isPhishing := true, confidence := "High",
      indicators := [], recommendations := [] }
    { extractDomains := some false, extractIPs := some false,
      extractHashes := some false, extractEmails := some false,
      minConfidence := some 0.2 }
    0.2 0.5 (by norm_num)


theorem detectDomainCampaign_success_inv
    (env : DetectorEnv) (opts : PatternDetectionOptions)
    (emailData : ExtractedEmailData) (p : DetectedPattern) (ops : List DbOp)
    (h : detectDomainCampaign env opts emailData = (.ok (some p), ops)) :
    opts.minMatchCount.getD 3 ≤ p.matchCount ∧
      (p.isNew = true ↔ p.matchCount = opts.minMatchCount.getD 3) := by
  unfold detectDomainCampaign at h
  cases hd : env.extractDomainFromEmail emailData.from_email with
  | none => simp only [hd] at h; simp at h
  | some domain =>
    simp only [hd] at h
    cases hde : domain.isEmpty with
    | true => simp [hde] at h
    | false =>
      simp only [hde, Bool.false_eq_true, if_false] at h
      cases hs : env.search (domainCampaignFilters env opts domain) with
      | error e => simp only [hs] at h; simp at h
      | ok recentAnalyses =>
        simp only [hs] at h
        by_cases hlen : opts.minMatchCount.getD 3 ≤ recentAnalyses.length
        · rw [if_pos hlen] at h
          cases hu : env.upsertPatternRes
              (domainCampaignRecord env domain recentAnalyses) with
          | error e => simp only [hu] at h; simp at h
          | ok u =>
            simp only [hu] at h
            simp only [Prod.mk.injEq, Except.ok.injEq, Option.some.injEq] at h
            obtain ⟨hp, -⟩ := h
            subst hp
            refine ⟨hlen, ?_⟩
            simp [domainCampaignPattern, beq_iff_eq]
        · rw [if_neg hlen] at h
          simp at h


theorem detectSubjectPattern_success_inv
    (env : DetectorEnv) (opts : PatternDetectionOptions)
    (emailData : ExtractedEmailData) (p : DetectedPattern) (ops : List DbOp)
    (h : detectSubjectPattern env opts emailData = (.ok (some p), ops)) :
    opts.minMatchCount.getD 3 ≤ p.matchCount ∧
      (p.isNew = true ↔ p.matchCount = opts.minMatchCount.getD 3) := by
  unfold detectSubjectPattern at h
  cases hk : extractSubjectKeyPhrases env (toLowerStr emailData.subject) with
  | nil => simp only [hk] at h; simp at h
  | cons p0 ps =>
    simp only [hk] at h
    cases hs : env.search (subjectPatternFilters env opts) with
    | error e => simp only [hs] at h; simp at h
    | ok recentAnalyses =>
      simp only [hs] at h
      by_cases hlen : opts.minMatchCount.getD 3 ≤
          (subjectPatternMatches (p0 :: ps) recentAnalyses).length
      · rw [if_pos hlen] at h
        cases hu : env.upsertPatternRes
            (subjectPatternRecord env p0 (p0 :: ps) emailData.subject
              (subjectPatternMatches (p0 :: ps) recentAnalyses)) with
        | error e => simp only [hu] at h; simp at h
        | ok u =>
          simp only [hu] at h
          simp only [Prod.mk.injEq, Except.ok.injEq, Option.some.injEq] at h
          obtain ⟨hp, -⟩ := h
          subst hp
          refine ⟨hlen, ?_⟩
          simp [subjectPatternPattern, beq_iff_eq]
      · rw [if_neg hlen] at h
        simp at h

theorem detectUrlPatternCampaign_success_inv
    (env : DetectorEnv) (opts : PatternDetectionOptions)
    (emailData : ExtractedEmailData) (p : DetectedPattern) (ops : List DbOp)
    (h : detectUrlPatternCampaign env opts emailData = (.ok (some p), ops)) :
    opts.minMatchCount.getD 3 ≤ p.matchCount ∧
      (p.isNew = true ↔ p.matchCount = opts.minMatchCount.getD 3) := by
  unfold detectUrlPatternCampaign at h
  cases hl0 : emailData.links.isEmpty with
  | true => simp [hl0] at h
  | false =>
    simp only [hl0, Bool.false_eq_true, if_false] at h
    cases hdl : dedupFirst
        (emailData.links.filterMap fun link =>
          (env.urlHostname link).map toLowerStr) with
    | nil => simp only [hdl] at h; simp at h
    | cons d0 ds =>
      simp only [hdl] at h
      cases hs : env.search (urlCampaignFilters env opts) with
      | error e => simp only [hs] at h; simp at h
      | ok recentAnalyses =>
        simp only [hs] at h
        by_cases hlen : opts.minMatchCount.getD 3 ≤
            (urlPatternMatchesOf env (d0 :: ds) recentAnalyses).length
        · rw [if_pos hlen] at h
          cases hu : env.upsertPatternRes
              (urlCampaignRecord env d0 (d0 :: ds)
                (urlPatternMatchesOf env (d0 :: ds) recentAnalyses)) with
          | error e => simp only [hu] at h; simp at h
          | ok u =>
            simp only [hu] at h
            simp only [Prod.mk.injEq, Except.ok.injEq, Option.some.injEq] at h
            obtain ⟨hp, -⟩ := h
            subst hp
            refine ⟨hlen, ?_⟩
            simp [urlCampaignPattern, beq_iff_eq]
        · rw [if_neg hlen] at h
          simp at h

/-- C9 (amended): each detector reports `isNew` true exactly when the number
of matching recent analyses equals the configured threshold — the code
compares with equality, not with \"first reaches\". Under strictly growing
match counts this is the single call where the count first equals the
threshold, and later calls for the same pattern key report false; but a
count that jumps over the threshold is never reported new. -/
theorem C9_amended_isNew_iff_threshold :
    (∀ (env : DetectorEnv) (opts : PatternDetectionOptions)
        (emailData : ExtractedEmailData) (p : DetectedPattern)
        (ops : List DbOp),
      detectDomainCampaign env opts emailData = (.ok (some p), ops) →
      (p.isNew = true ↔ p.matchCount = opts.minMatchCount.getD 3)) ∧
    (∀ (env : DetectorEnv) (opts : PatternDetectionOptions)
        (emailData : ExtractedEmailData) (p : DetectedPattern)
        (ops : List DbOp),
      detectSubjectPattern env opts emailData = (.ok (some p), ops) →
      (p.isNew = true ↔ p.matchCount = opts.minMatchCount.getD 3)) ∧
    (∀ (env : DetectorEnv) (opts : PatternDetectionOptions)
        (emailData : ExtractedEmailData) (p : DetectedPattern)
        (ops : List DbOp),
      detectUrlPatternCampaign env opts emailData = (.ok (some p), ops) →
      (p.isNew = true ↔ p.matchCount = opts.minMatchCount.getD 3)) ∧
    (∀ (env1 env2 : DetectorEnv) (opts : PatternDetectionOptions)
        (ed1 ed2 : ExtractedEmailData) (p1 p2 : DetectedPattern)
        (ops1 ops2 : List DbOp),
      detectDomainCampaign env1 opts ed1 = (.ok (some p1), ops1) →
      detectDomainCampaign env2 opts ed2 = (.ok (some p2), ops2) →
      p1.matchCount < p2.matchCount → p2.isNew = false) ∧
    (∀ (env1 env2 : DetectorEnv) (opts : PatternDetectionOptions)
        (ed1 ed2 : ExtractedEmailData) (p1 p2 : DetectedPattern)
        (ops1 ops2 : List DbOp),
      detectSubjectPattern env1 opts ed1 = (.ok (some p1), ops1) →
      detectSubjectPattern env2 opts ed2 = (.ok (some p2), ops2) →
      p1.matchCount < p2.matchCount → p2.isNew = false) ∧
    (∀ (env1 env2 : DetectorEnv) (opts : PatternDetectionOptions)
        (ed1 ed2 : ExtractedEmailData) (p1 p2 : DetectedPattern)
        (ops1 ops2 : List DbOp),
      detectUrlPatternCampaign env1 opts ed1 = (.ok (some p1), ops1) →
      detectUrlPatternCampaign env2 opts ed2 = (.ok (some p2), ops2) →
      p1.matchCount < p2.matchCount → p2.isNew = false) := by
  refine ⟨fun env opts ed p ops h =>
      (detectDomainCampaign_success_inv env opts ed p ops h).2,
    fun env opts ed p ops h =>
      (detectSubjectPattern_success_inv env opts ed p ops h).2,
    fun env opts ed p ops h =>
      (detectUrlPatternCampaign_success_inv env opts ed p ops h).2,
    ?_, ?_, ?_⟩
  · intro env1 env2 opts ed1 ed2 p1 p2 ops1 ops2 h1 h2 hlt
    have i1 := detectDomainCampaign_success_inv env1 opts ed1 p1 ops1 h1
    have i2 := detectDomainCampaign_success_inv env2 opts ed2 p2 ops2 h2
    cases hb : p2.isNew with
    | false => rfl
    | true => exact absurd (i2.2.mp hb) (by omega)
  · intro env1 env2 opts ed1 ed2 p1 p2 ops1 ops2 h1 h2 hlt
    have i1 := detectSubjectPattern_success_inv env1 opts ed1 p1 ops1 h1
    have i2 := detectSubjectPattern_success_inv env2 opts ed2 p2 ops2 h2
    cases hb : p2.isNew with
    | false => rfl
    | true => exact absurd (i2.2.mp hb) (by omega)
  · intro env1 env2 opts ed1 ed2 p1 p2 ops1 ops2 h1 h2 hlt
    have i1 := detectUrlPatternCampaign_success_inv env1 opts ed1 p1 ops1 h1
    have i2 := detectUrlPatternCampaign_success_inv env2 opts ed2 p2 ops2 h2
    cases hb : p2.isNew with
    | false => rfl
    | true => exact absurd (i2.2.mp hb) (by omega)


/-- C9 witness: the amended theorem applied to a concrete environment whose
search returns exactly three matching analyses, at the default threshold 3:
the returned domain-campaign pattern has isNew true. -/
theorem C9_witness :
    (domainCampaignPattern {} "mal.example"
      [⟨"s1", [], false, some 0⟩, ⟨"s2", [], false, some 1⟩,
       ⟨"s3", [], false, some 2⟩]).isNew = true :=
  (C9_amended_isNew_iff_threshold.1
    { now := 10
      search := fun _ => .ok
        [⟨"s1", [], false, some 0⟩, ⟨"s2", [], false, some 1⟩,
         ⟨"s3", [], false, some 2⟩]
      upsertPatternRes := fun _ => .ok ()
      extractDomainFromEmail := fun _ => some "mal.example"
      urlHostname := fun _ => none
      phraseMatchers := []
      urlIndicatorDomain := fun _ => none }
    {} { from_email := "x@mal.example", subject := "s", text := "t",
         html := "h", links := [] }
    _ _ rfl).mpr rfl

/-- C9 counterexample: two successive `detectPatterns` calls for the same
domain whose searches each return three windowed matches both report
isNew = true, so isNew is not true on only the first qualifying call. -/
theorem C9_counterexample :
    ((detectDomainCampaign
        { now := 0
          search := fun _ => .ok
            [⟨"s1", [], false, some 0⟩, ⟨"s2", [], false, some 1⟩,
             ⟨"s3", [], false, some 2⟩]
          upsertPatternRes := fun _ => .ok ()
          extractDomainFromEmail := fun _ => some "mal.example"
          urlHostname := fun _ => none
          phraseMatchers := []
          urlIndicatorDomain := fun _ => none }
        {} { from_email := "x@mal.example", subject := "s", text := "t",
             html := "h", links := [] }).1 =
      .ok (some (domainCampaignPattern {} "mal.example"
        [⟨"s1", [], false, some 0⟩, ⟨"s2", [], false, some 1⟩,
         ⟨"s3", [], false, some 2⟩])) ∧
     (domainCampaignPattern ({} : PatternDetectionOptions) "mal.example"
        [⟨"s1", [], false, some 0⟩, ⟨"s2", [], false, some 1⟩,
         ⟨"s3", [], false, some 2⟩]).isNew = true) ∧
    ((detectDomainCampaign
        { now := 7200000
          search := fun _ => .ok
            [⟨"s2", [], false, some 1⟩, ⟨"s3", [], false, some 2⟩,
             ⟨"s4", [], false, some 7100000⟩]
          upsertPatternRes := fun _ => .ok ()
          extractDomainFromEmail := fun _ => some "mal.example"
          urlHostname := fun _ => none
          phraseMatchers := []
          urlIndicatorDomain := fun _ => none }
        {} { from_email := "x@mal.example", subject := "s", text := "t",
             html := "h", links := [] }).1 =
      .ok (some (domainCampaignPattern {} "mal.example"
        [⟨"s2", [], false, some 1⟩, ⟨"s3", [], false, some 2⟩,
         ⟨"s4", [], false, some 7100000⟩])) ∧
     (domainCampaignPattern ({} : PatternDetectionOptions) "mal.example"
        [⟨"s2", [], false, some 1⟩, ⟨"s3", [], false, some 2⟩,
         ⟨"s4", [], false, some 7100000⟩]).isNew = true) :=
  ⟨⟨rfl, rfl⟩, ⟨rfl, rfl⟩⟩


/-! ## Character lemmas for the normalization proofs -/

theorem char_toNat_ofNat (n : Nat) (h : n.isValidChar) :
    (Char.ofNat n).toNat = n := by
  simp [Char.ofNat, h]
  rfl

theorem isUpperChar_lowerChar (c : Char) :
    isUpperChar (lowerChar c) = false := by
  unfold lowerChar
  by_cases h : (65 ≤ c.toNat && c.toNat ≤ 90) = true
  · rw [if_pos h]
    simp only [Bool.and_eq_true, decide_eq_true_eq] at h
    have hv : (c.toNat + 32).isValidChar := Or.inl (by omega)
    unfold isUpperChar
    rw [char_toNat_ofNat _ hv]
    rw [decide_eq_false (by omega : ¬(c.toNat + 32 ≤ 90)), Bool.and_false]
  · rw [if_neg h]
    unfold isUpperChar
    exact Bool.eq_false_iff.mpr h

theorem lowerChar_eq_self_of_not_upper (c : Char)
    (h : isUpperChar c = false) : lowerChar c = c := by
  unfold isUpperChar at h
  unfold lowerChar
  rw [if_neg (Bool.eq_false_iff.mp h)]

theorem mem_lowerList_not_upper (l : List Char) :
    ∀ c ∈ lowerList l, isUpperChar c = false := by
  intro c hc
  unfold lowerList at hc
  obtain ⟨a, -, rfl⟩ := List.mem_map.mp hc
  exact isUpperChar_lowerChar a

theorem lowerChar_eq_self_of_goodChar (c : Char) (h : goodChar c = true) :
    lowerChar c = c := by
  apply lowerChar_eq_self_of_not_upper
  unfold goodChar isLowerChar at h
  unfold isUpperChar
  simp only [Bool.or_eq_true, Bool.and_eq_true, decide_eq_true_eq,
    beq_iff_eq] at h
  rw [Bool.eq_false_iff]
  intro hc
  simp only [Bool.and_eq_true, decide_eq_true_eq] at hc
  rcases h with ((⟨h1, h2⟩ | h3) | h3) | h3
  · omega
  · subst h3
    revert hc
    decide
  · subst h3
    revert hc
    decide
  · subst h3
    revert hc
    decide

theorem lowerList_eq_self_of_goodChar (l : List Char)
    (h : ∀ c ∈ l, goodChar c = true) : lowerList l = l := by
  unfold lowerList
  rw [List.map_congr_left fun c hc => lowerChar_eq_self_of_goodChar c (h c hc)]
  exact List.map_id l


/-! ## Scanner lemmas -/

theorem stripAllGo_sublist (m : List Char) :
    ∀ (fuel : Nat) (l : List Char), l.length ≤ fuel →
      List.Sublist (stripAllGo m fuel l) l := by
  intro fuel
  induction fuel with
  | zero =>
    intro l hl
    rw [List.eq_nil_of_length_eq_zero (Nat.le_zero.mp hl)]
    simp [stripAllGo]
  | succ f ih =>
    intro l hl
    cases l with
    | nil => simp [stripAllGo]
    | cons c rest =>
      simp only [List.length_cons] at hl
      by_cases hp : (m.isPrefixOf (c :: rest) && !m.isEmpty) = true
      · simp only [stripAllGo, if_pos hp]
        have hlen : (dropWs (rest.drop (m.length - 1))).length ≤ f := by
          have h1 : (dropWs (rest.drop (m.length - 1))).length ≤
              (rest.drop (m.length - 1)).length :=
            (List.dropWhile_sublist _).length_le
          have h2 : (rest.drop (m.length - 1)).length ≤ rest.length :=
            (List.drop_sublist _ _).length_le
          omega
        exact (ih _ hlen).trans
          (((List.dropWhile_sublist _).trans (List.drop_sublist _ _)).trans
            (List.sublist_cons_self c rest))
      · simp only [stripAllGo, if_neg hp]
        exact (ih rest (by omega)).cons₂ c

theorem stripAll_sublist (m l : List Char) :
    List.Sublist (stripAll m l) l :=
  stripAllGo_sublist m l.length l le_rfl

theorem digitsToHashGo_mem :
    ∀ (fuel : Nat) (l : List Char), l.length ≤ fuel →
      ∀ c ∈ digitsToHashGo fuel l, isDigitChar c = false ∧ (c = '#' ∨ c ∈ l) := by
  intro fuel
  induction fuel with
  | zero =>
    intro l hl
    rw [List.eq_nil_of_length_eq_zero (Nat.le_zero.mp hl)]
    simp [digitsToHashGo]
  | succ f ih =>
    intro l hl
    cases l with
    | nil => simp [digitsToHashGo]
    | cons c0 rest =>
      simp only [List.length_cons] at hl
      intro c hc
      by_cases hd : isDigitChar c0 = true
      · simp only [digitsToHashGo, if_pos hd] at hc
        rcases List.mem_cons.mp hc with rfl | hc2
        · exact ⟨by decide, Or.inl rfl⟩
        · have hlen : (dropDigits rest).length ≤ f := by
            have := (List.dropWhile_sublist (l := rest) isDigitChar).length_le
            simp only [dropDigits]
            omega
          obtain ⟨hnd, hm⟩ := ih _ hlen c hc2
          refine ⟨hnd, ?_⟩
          rcases hm with rfl | hm2
          · exact Or.inl rfl
          · exact Or.inr (List.mem_cons_of_mem _
              ((List.dropWhile_sublist _).subset hm2))
      · simp only [digitsToHashGo, if_neg hd] at hc
        rcases List.mem_cons.mp hc with rfl | hc2
        · exact ⟨Bool.eq_false_iff.mpr hd, Or.inr (List.mem_cons_self _ _)⟩
        · obtain ⟨hnd, hm⟩ := ih rest (by omega) c hc2
          refine ⟨hnd, ?_⟩
          rcases hm with rfl | hm2
          · exact Or.inl rfl
          · exact Or.inr (List.mem_cons_of_mem _ hm2)

theorem collapseWsGo_mem :
    ∀ (fuel : Nat) (l : List Char), l.length ≤ fuel →
      ∀ c ∈ collapseWsGo fuel l,
        c = ' ' ∨ (c ∈ l ∧ isWsChar c = false) := by
  intro fuel
  induction fuel with
  | zero =>
    intro l hl
    rw [List.eq_nil_of_length_eq_zero (Nat.le_zero.mp hl)]
    simp [collapseWsGo]
  | succ f ih =>
    intro l hl
    cases l with
    | nil => simp [collapseWsGo]
    | cons c0 rest =>
      simp only [List.length_cons] at hl
      intro c hc
      by_cases hw : isWsChar c0 = true
      · simp only [collapseWsGo, if_pos hw] at hc
        rcases List.mem_cons.mp hc with rfl | hc2
        · exact Or.inl rfl
        · have hlen : (dropWs rest).length ≤ f := by
            have := (List.dropWhile_sublist (l := rest) isWsChar).length_le
            simp only [dropWs]
            omega
          rcases ih _ hlen c hc2 with rfl | ⟨hm, hnw⟩
          · exact Or.inl rfl
          · exact Or.inr ⟨List.mem_cons_of_mem _
              ((List.dropWhile_sublist _).subset hm), hnw⟩
      · simp only [collapseWsGo, if_neg hw] at hc
        rcases List.mem_cons.mp hc with rfl | hc2
        · exact Or.inr ⟨List.mem_cons_self _ _, Bool.eq_false_iff.mpr hw⟩
        · rcases ih rest (by omega) c hc2 with rfl | ⟨hm, hnw⟩
          · exact Or.inl rfl
          · exact Or.inr ⟨List.mem_cons_of_mem _ hm, hnw⟩


theorem dropWs_head_not_ws :
    ∀ (l : List Char) (d : Char) (t : List Char),
      dropWs l = d :: t → isWsChar d = false := by
  intro l
  induction l with
  | nil => intro d t h; simp [dropWs] at h
  | cons c rest ih =>
    intro d t h
    by_cases hw : isWsChar c = true
    · exact ih d t (by simpa [dropWs, List.dropWhile, hw] using h)
    · simp [dropWs, List.dropWhile, hw] at h
      rw [← h.1]
      exact Bool.eq_false_iff.mpr hw

theorem collapseWsGo_head_of_not_ws (fuel : Nat) (c0 : Char)
    (rest : List Char) (h : isWsChar c0 = false) :
    (collapseWsGo (fuel + 1) (c0 :: rest)).head? = some c0 := by
  simp only [collapseWsGo, if_neg (Bool.eq_false_iff.mp h)]
  rfl

theorem noAdjSpace_cons (c : Char) (l : List Char)
    (hl : noAdjSpace l = true)
    (hc : ∀ x, l.head? = some x → (c = ' ' → x ≠ ' ')) :
    noAdjSpace (c :: l) = true := by
  cases l with
  | nil => rfl
  | cons x t =>
    have hx := hc x rfl
    simp only [noAdjSpace, Bool.and_eq_true]
    refine ⟨?_, hl⟩
    by_cases hcs : c = ' '
    · simp [hcs, hx hcs]
    · simp [hcs]

theorem collapseWsGo_noAdjSpace :
    ∀ (fuel : Nat) (l : List Char), l.length ≤ fuel →
      noAdjSpace (collapseWsGo fuel l) = true := by
  intro fuel
  induction fuel with
  | zero =>
    intro l hl
    rw [List.eq_nil_of_length_eq_zero (Nat.le_zero.mp hl)]
    rfl
  | succ f ih =>
    intro l hl
    cases l with
    | nil => rfl
    | cons c0 rest =>
      simp only [List.length_cons] at hl
      by_cases hw : isWsChar c0 = true
      · simp only [collapseWsGo, if_pos hw]
        have hlen : (dropWs rest).length ≤ f := by
          have := (List.dropWhile_sublist (l := rest) isWsChar).length_le
          simp only [dropWs]
          omega
        apply noAdjSpace_cons _ _ (ih _ hlen)
        intro x hx _
        cases hdw : dropWs rest with
        | nil => rw [hdw] at hx; simp [collapseWsGo] at hx
        | cons d0 drest =>
          have hd0 : isWsChar d0 = false := dropWs_head_not_ws rest d0 drest hdw
          cases f with
          | zero =>
            rw [hdw] at hlen
            simp at hlen
          | succ f2 =>
            rw [hdw, collapseWsGo_head_of_not_ws f2 d0 drest hd0] at hx
            intro hxs
            rw [hxs] at hx
            have : d0 = ' ' := by injection hx
            rw [this] at hd0
            exact absurd hd0 (by decide)
      · simp only [collapseWsGo, if_neg hw]
        apply noAdjSpace_cons _ _ (ih rest (by omega))
        intro x hx hcs
        rw [hcs] at hw
        exact absurd hw (by decide)


theorem noAdjSpace_tail (x : Char) (l : List Char)
    (h : noAdjSpace (x :: l) = true) : noAdjSpace l = true := by
  cases l with
  | nil => rfl
  | cons y t =>
    simp only [noAdjSpace, Bool.and_eq_true] at h
    exact h.2

theorem noAdjSpace_append_left :
    ∀ (a b : List Char), noAdjSpace (a ++ b) = true →
      noAdjSpace a = true := by
  intro a b
  induction a with
  | nil => intro _; rfl
  | cons x xs ih =>
    intro h
    cases xs with
    | nil => rfl
    | cons y ys =>
      simp only [List.cons_append, noAdjSpace, Bool.and_eq_true] at h ⊢
      exact ⟨h.1, by simpa [noAdjSpace] using ih (by simpa [noAdjSpace] using h.2)⟩

theorem noAdjSpace_append_right :
    ∀ (a b : List Char), noAdjSpace (a ++ b) = true →
      noAdjSpace b = true := by
  intro a b
  induction a with
  | nil => exact id
  | cons x xs ih =>
    intro h
    exact ih (noAdjSpace_tail x (xs ++ b) (by simpa using h))

theorem noAdjSpace_take (n : Nat) (l : List Char)
    (h : noAdjSpace l = true) : noAdjSpace (l.take n) = true := by
  have : l = l.take n ++ l.drop n := (List.take_append_drop n l).symm
  rw [this] at h
  exact noAdjSpace_append_left _ _ h

theorem stripAllGo_eq_self (m : List Char) (hm : ':' ∈ m) :
    ∀ (fuel : Nat) (l : List Char), l.length ≤ fuel →
      (∀ c ∈ l, c ≠ ':') → stripAllGo m fuel l = l := by
  intro fuel
  induction fuel with
  | zero =>
    intro l hl _
    rw [List.eq_nil_of_length_eq_zero (Nat.le_zero.mp hl)]
    rfl
  | succ f ih =>
    intro l hl hc
    cases l with
    | nil => rfl
    | cons c0 rest =>
      simp only [List.length_cons] at hl
      have hp : (m.isPrefixOf (c0 :: rest) && !m.isEmpty) = false := by
        by_cases hp1 : m.isPrefixOf (c0 :: rest) = true
        · exfalso
          have hpre := List.isPrefixOf_iff_prefix.mp hp1
          exact hc ':' (hpre.subset hm) rfl
        · simp [Bool.eq_false_iff.mpr hp1]
      simp only [stripAllGo, hp, Bool.false_eq_true, if_false]
      rw [ih rest (by omega) fun c hcm => hc c (List.mem_cons_of_mem _ hcm)]

theorem digitsToHashGo_eq_self :
    ∀ (fuel : Nat) (l : List Char), l.length ≤ fuel →
      (∀ c ∈ l, isDigitChar c = false) → digitsToHashGo fuel l = l := by
  intro fuel
  induction fuel with
  | zero =>
    intro l hl _
    rw [List.eq_nil_of_length_eq_zero (Nat.le_zero.mp hl)]
    rfl
  | succ f ih =>
    intro l hl hc
    cases l with
    | nil => rfl
    | cons c0 rest =>
      simp only [List.length_cons] at hl
      have hd : isDigitChar c0 = false := hc c0 (List.mem_cons_self _ _)
      simp only [digitsToHashGo, hd, Bool.false_eq_true, if_false]
      rw [ih rest (by omega) fun c hcm => hc c (List.mem_cons_of_mem _ hcm)]

theorem collapseWsGo_eq_self :
    ∀ (fuel : Nat) (l : List Char), l.length ≤ fuel →
      (∀ c ∈ l, isWsChar c = true → c = ' ') → noAdjSpace l = true →
      collapseWsGo fuel l = l := by
  intro fuel
  induction fuel with
  | zero =>
    intro l hl _ _
    rw [List.eq_nil_of_length_eq_zero (Nat.le_zero.mp hl)]
    rfl
  | succ f ih =>
    intro l hl hc hadj
    cases l with
    | nil => rfl
    | cons c0 rest =>
      simp only [List.length_cons] at hl
      by_cases hw : isWsChar c0 = true
      · have hc0 : c0 = ' ' := hc c0 (List.mem_cons_self _ _) hw
        have hrest : dropWs rest = rest := by
          cases rest with
          | nil => rfl
          | cons x t =>
            have hx : isWsChar x = false := by
              by_cases hxw : isWsChar x = true
              · have hxs : x = ' ' :=
                  hc x (List.mem_cons_of_mem _ (List.mem_cons_self _ _)) hxw
                subst hc0
                subst hxs
                simp [noAdjSpace] at hadj
              · exact Bool.eq_false_iff.mpr hxw
            simp [dropWs, List.dropWhile, hx]
        simp only [collapseWsGo, if_pos hw, hrest]
        rw [ih rest (by omega)
          (fun c hcm => hc c (List.mem_cons_of_mem _ hcm))
          (noAdjSpace_tail _ _ hadj), hc0]
      · simp only [collapseWsGo, if_neg hw]
        rw [ih rest (by omega)
          (fun c hcm => hc c (List.mem_cons_of_mem _ hcm))
          (noAdjSpace_tail _ _ hadj)]


theorem trimWs_subset (l : List Char) : ∀ c ∈ trimWs l, c ∈ l := by
  intro c hc
  unfold trimWs at hc
  have h1 := ( List.rdropWhile_prefix isWsChar (l.dropWhile isWsChar)).subset hc
  exact (List.dropWhile_sublist _).subset h1

theorem trimWs_head_not_ws (l : List Char) (c : Char)
    (h : (trimWs l).head? = some c) : isWsChar c = false := by
  unfold trimWs at h
  obtain ⟨t, ht⟩ := List.rdropWhile_prefix isWsChar (l.dropWhile isWsChar)
  cases hu : (l.dropWhile isWsChar).rdropWhile isWsChar with
  | nil => rw [hu] at h; simp at h
  | cons d drest =>
    rw [hu] at h
    have hd : d = c := by injection h
    rw [hu] at ht
    have : l.dropWhile isWsChar = d :: (drest ++ t) := by
      rw [← ht]
      simp
    subst hd
    exact dropWs_head_not_ws l d (drest ++ t) (by simpa [dropWs] using this)

theorem trimWs_getLast_not_ws (l : List Char) (c : Char)
    (h : (trimWs l).getLast? = some c) : isWsChar c = false := by
  unfold trimWs at h
  have hne : (l.dropWhile isWsChar).rdropWhile isWsChar ≠ [] := by
    intro hnil
    rw [hnil] at h
    simp at h
  have hlast := List.rdropWhile_last_not isWsChar (l.dropWhile isWsChar) hne
  rw [List.getLast?_eq_getLast _ hne] at h
  have : (((l.dropWhile isWsChar).rdropWhile isWsChar).getLast hne) = c := by
    injection h
  rw [this] at hlast
  exact Bool.eq_false_iff.mpr hlast

theorem noAdjSpace_trimWs (l : List Char) (h : noAdjSpace l = true) :
    noAdjSpace (trimWs l) = true := by
  unfold trimWs
  obtain ⟨t2, ht2⟩ := List.rdropWhile_prefix isWsChar (l.dropWhile isWsChar)
  obtain ⟨t1, ht1⟩ := List.dropWhile_suffix (l := l) isWsChar
  have hmid : noAdjSpace (l.dropWhile isWsChar) = true := by
    rw [← ht1] at h
    exact noAdjSpace_append_right t1 _ h
  rw [← ht2] at hmid
  exact noAdjSpace_append_left _ t2 hmid

theorem trimWs_eq_self (l : List Char)
    (hhead : ∀ c, l.head? = some c → isWsChar c = false)
    (hlast : ∀ c, l.getLast? = some c → isWsChar c = false) :
    trimWs l = l := by
  unfold trimWs
  have h1 : l.dropWhile isWsChar = l := by
    cases l with
    | nil => rfl
    | cons c rest =>
      simp [List.dropWhile, Bool.eq_false_iff.mp (hhead c rfl)]
  rw [h1]
  rw [List.rdropWhile_eq_self_iff]
  intro hne
  have := hlast (l.getLast hne) (List.getLast?_eq_getLast l hne)
  simp [this]


theorem goodChar_not_digit (c : Char) (h : goodChar c = true) :
    isDigitChar c = false := by
  unfold goodChar isLowerChar at h
  unfold isDigitChar
  simp only [Bool.or_eq_true, Bool.and_eq_true, decide_eq_true_eq,
    beq_iff_eq] at h
  rw [Bool.eq_false_iff]
  intro hc
  simp only [Bool.and_eq_true, decide_eq_true_eq] at hc
  rcases h with ((⟨h1, h2⟩ | h3) | h3) | h3
  · omega
  · subst h3
    revert hc
    decide
  · subst h3
    revert hc
    decide
  · subst h3
    revert hc
    decide

theorem goodChar_passes_filter (c : Char) (h : goodChar c = true) :
    (isWordChar c || isWsChar c || c = '#') = true := by
  unfold goodChar at h
  simp only [Bool.or_eq_true, beq_iff_eq, decide_eq_true_eq] at h
  simp only [Bool.or_eq_true, beq_iff_eq, decide_eq_true_eq]
  rcases h with ((h3 | h3) | h3) | h3
  · exact Or.inl (Or.inl (by unfold isWordChar; simp [h3]))
  · exact Or.inl (Or.inl (by unfold isWordChar; simp [h3]))
  · exact Or.inr h3
  · subst h3
    exact Or.inl (Or.inr (by decide))

theorem goodChar_ws_space (c : Char) (hg : goodChar c = true)
    (hw : isWsChar c = true) : c = ' ' := by
  unfold goodChar isLowerChar at hg
  unfold isWsChar at hw
  simp only [Bool.or_eq_true, Bool.and_eq_true, decide_eq_true_eq,
    beq_iff_eq] at hg hw
  rcases hg with ((⟨h1, h2⟩ | h3) | h3) | h3
  · exfalso
    revert hw
    simp only [imp_false, not_or]
    refine ⟨⟨⟨⟨⟨?_, ?_⟩, ?_⟩, ?_⟩, ?_⟩, ?_⟩ <;>
      intro hx <;> subst hx <;> revert h1 <;> decide
  · subst h3
    revert hw
    decide
  · subst h3
    revert hw
    decide
  · exact h3

theorem head?_take_succ (n : Nat) (l : List Char) :
    (l.take (n + 1)).head? = l.head? := by
  cases l <;> rfl

theorem normalizeCore_goodChars (l : List Char) :
    ∀ c ∈ normalizeCore l, goodChar c = true := by
  intro c hc
  unfold normalizeCore at hc
  have hc2 := trimWs_subset _ c hc
  rcases collapseWsGo_mem _ _ le_rfl c hc2 with rfl | ⟨hm3, hnw⟩
  · decide
  · obtain ⟨hm2, hfil⟩ := List.mem_filter.mp hm3
    obtain ⟨hnd, hm1⟩ := digitsToHashGo_mem _ _ le_rfl c hm2
    rcases hm1 with rfl | hm1
    · decide
    · have hmlow : c ∈ lowerList l :=
        (stripAll_sublist _ _).subset
          ((stripAll_sublist _ _).subset ((stripAll_sublist _ _).subset hm1))
      have hnu := mem_lowerList_not_upper l c hmlow
      simp only [Bool.or_eq_true, beq_iff_eq] at hfil
      rcases hfil with (hword | hws) | hhash
      · unfold isWordChar at hword
        simp only [Bool.or_eq_true, beq_iff_eq] at hword
        rcases hword with ((hu | hl2) | hd) | hus
        · rw [hnu] at hu
          exact absurd hu (by decide)
        · unfold goodChar
          simp [hl2]
        · rw [hnd] at hd
          exact absurd hd (by decide)
        · unfold goodChar
          simp [hus]
      · rw [hnw] at hws
        exact absurd hws (by decide)
      · unfold goodChar
        simp [hhash]

theorem normalizeCore_noAdjSpace (l : List Char) :
    noAdjSpace (normalizeCore l) = true := by
  unfold normalizeCore
  exact noAdjSpace_trimWs _ (collapseWsGo_noAdjSpace _ _ le_rfl)

theorem normalizeCore_head_not_ws (l : List Char) (c : Char)
    (h : (normalizeCore l).head? = some c) : isWsChar c = false := by
  unfold normalizeCore at h
  exact trimWs_head_not_ws _ c h

theorem normalizeCore_eq_self (u : List Char)
    (hg : ∀ c ∈ u, goodChar c = true) (hadj : noAdjSpace u = true)
    (hhead : ∀ c, u.head? = some c → isWsChar c = false)
    (hlast : ∀ c, u.getLast? = some c → isWsChar c = false) :
    normalizeCore u = u := by
  unfold normalizeCore
  rw [lowerList_eq_self_of_goodChar u hg]
  have hnc : ∀ c ∈ u, c ≠ ':' := by
    intro c hcu hcol
    have := hg c hcu
    subst hcol
    revert this
    decide
  rw [show stripAll "re:".data u = u from
    stripAllGo_eq_self _ (by decide) u.length u le_rfl hnc]
  rw [show stripAll "fw:".data u = u from
    stripAllGo_eq_self _ (by decide) u.length u le_rfl hnc]
  rw [show stripAll "fwd:".data u = u from
    stripAllGo_eq_self _ (by decide) u.length u le_rfl hnc]
  rw [show digitsToHash u = u from
    digitsToHashGo_eq_self u.length u le_rfl
      fun c hcu => goodChar_not_digit c (hg c hcu)]
  rw [show keepWordWsHash u = u from
    List.filter_eq_self.mpr fun c hcu => goodChar_passes_filter c (hg c hcu)]
  rw [show collapseWs u = u from
    collapseWsGo_eq_self u.length u le_rfl
      (fun c hcu hw => goodChar_ws_space c (hg c hcu) hw) hadj]
  exact trimWs_eq_self u hhead hlast


theorem normalize_take_idem (l : List Char)
    (hs : ((normalizeCore l).take 100).getLast? ≠ some ' ') :
    (normalizeCore ((normalizeCore l).take 100)).take 100 =
      (normalizeCore l).take 100 := by
  have hg0 := normalizeCore_goodChars l
  have hadj0 := normalizeCore_noAdjSpace l
  have hhead0 := normalizeCore_head_not_ws l
  generalize hX : normalizeCore l = X at hs hg0 hadj0 hhead0 ⊢
  have hg : ∀ c ∈ X.take 100, goodChar c = true := fun c hc =>
    hg0 c (List.take_subset 100 X hc)
  have hadj : noAdjSpace (X.take 100) = true := noAdjSpace_take 100 X hadj0
  have hhead : ∀ c, (X.take 100).head? = some c → isWsChar c = false := by
    intro c hc
    rw [show (100 : Nat) = 99 + 1 from rfl, head?_take_succ] at hc
    exact hhead0 c hc
  have hlast : ∀ c, (X.take 100).getLast? = some c → isWsChar c = false := by
    intro c hc
    have hcm : c ∈ X.take 100 := by
      obtain ⟨hne, hceq⟩ :=
        List.mem_getLast?_eq_getLast (Option.mem_def.mpr hc)
      rw [hceq]
      exact List.getLast_mem hne
    have hgc := hg c hcm
    by_cases hws : isWsChar c = true
    · have := goodChar_ws_space c hgc hws
      subst this
      exact absurd hc hs
    · exact Bool.eq_false_iff.mpr hws
  rw [normalizeCore_eq_self (X.take 100) hg hadj hhead hlast]
  simp [List.take_take]

set_option maxHeartbeats 3200000 in
/-- C4 (amended): `normalizeSubjectForCampaign` is idempotent on every string
whose normal form does not end in a space — the trim-before-truncate order
means truncation at 100 characters can expose a trailing space, the only
obstruction — and it sends \"Invoice #4521 Due\" and \"invoice #88 due\" to the
same value, \"invoice ## due\". -/
theorem C4_amended_normalize_idempotent :
    (∀ s : String,
      (normalizeSubjectForCampaign s).data.getLast? ≠ some ' ' →
      normalizeSubjectForCampaign (normalizeSubjectForCampaign s) =
        normalizeSubjectForCampaign s) ∧
    normalizeSubjectForCampaign "Invoice #4521 Due" =
      normalizeSubjectForCampaign "invoice #88 due" := by
  constructor
  · intro s hs
    exact congrArg String.mk (normalize_take_idem s.data hs)
  · exact Eq.trans
      (show normalizeSubjectForCampaign "Invoice #4521 Due" =
        "invoice ## due" by decide)
      (show normalizeSubjectForCampaign "invoice #88 due" =
        "invoice ## due" by decide).symm

set_option maxHeartbeats 1600000 in
/-- C4 witness: the amended theorem applied to \"Invoice #4521 Due\": its
normal form ends in no space, normalizing twice is the same as once, and it
collides with \"invoice #88 due\". -/
theorem C4_witness :
    normalizeSubjectForCampaign
        (normalizeSubjectForCampaign "Re: Meeting at 12") =
      normalizeSubjectForCampaign "Re: Meeting at 12" :=
  C4_amended_normalize_idempotent.1 "Re: Meeting at 12" (by decide)

set_option maxHeartbeats 1600000 in
/-- C4 counterexample: a subject of 99 letters then \" bb\" normalizes to a
100-character string ending in a space, which normalization maps to its
99-character trim: normalize is not idempotent there. -/
theorem C4_counterexample :
    normalizeSubjectForCampaign
        (normalizeSubjectForCampaign
          ⟨List.replicate 99 'a' ++ [' ', 'b', 'b']⟩) ≠
      normalizeSubjectForCampaign ⟨List.replicate 99 'a' ++ [' ', 'b', 'b']⟩ := by
  decide


theorem specDigitsToHash_state (c : Char) (rest : List Char) :
    ((c :: rest).foldr
      (fun c acc =>
        if isDigitChar c then
          if acc.2 then (acc.1, true) else ('#' :: acc.1, true)
        else (c :: acc.1, false))
      (([] : List Char), false)).2 = isDigitChar c := by
  rw [List.foldr_cons]
  by_cases h : isDigitChar c = true
  · simp only [h, if_true]
    split <;> rfl
  · simp only [Bool.eq_false_iff.mpr h, Bool.false_eq_true, if_false]

theorem specDigitsToHash_digit_run :
    ∀ (rest : List Char) (c : Char), isDigitChar c = true →
      specDigitsToHash (c :: rest) = '#' :: specDigitsToHash (dropDigits rest) := by
  intro rest
  induction rest with
  | nil =>
    intro c hc
    simp [specDigitsToHash, hc, dropDigits]
  | cons d rest2 ih =>
    intro c hc
    by_cases hd : isDigitChar d = true
    · have h2 := specDigitsToHash_state d rest2
      unfold specDigitsToHash
      rw [List.foldr_cons]
      simp only [hc, if_true, h2, hd, if_true]
      have := ih d hd
      unfold specDigitsToHash at this
      rw [this]
      have hdd : dropDigits (d :: rest2) = dropDigits rest2 := by
        simp [dropDigits, List.dropWhile, hd]
      rw [hdd]
    · have h2 := specDigitsToHash_state d rest2
      unfold specDigitsToHash
      rw [List.foldr_cons]
      simp only [hc, if_true, h2, Bool.eq_false_iff.mpr hd,
        Bool.false_eq_true, if_false]
      have hdd : dropDigits (d :: rest2) = d :: rest2 := by
        simp [dropDigits, List.dropWhile, Bool.eq_false_iff.mpr hd]
      rw [hdd]

theorem digitsToHashGo_eq_spec :
    ∀ (fuel : Nat) (l : List Char), l.length ≤ fuel →
      digitsToHashGo fuel l = specDigitsToHash l := by
  intro fuel
  induction fuel with
  | zero =>
    intro l hl
    rw [List.eq_nil_of_length_eq_zero (Nat.le_zero.mp hl)]
    rfl
  | succ f ih =>
    intro l hl
    cases l with
    | nil => rfl
    | cons c rest =>
      simp only [List.length_cons] at hl
      by_cases hc : isDigitChar c = true
      · have hlen : (dropDigits rest).length ≤ f := by
          have := (List.dropWhile_sublist (l := rest) isDigitChar).length_le
          simp only [dropDigits]
          omega
        simp only [digitsToHashGo, hc, if_true]
        rw [ih _ hlen, ← specDigitsToHash_digit_run rest c hc]
      · simp only [digitsToHashGo, Bool.eq_false_iff.mpr hc,
          Bool.false_eq_true, if_false]
        rw [ih rest (by omega)]
        have h2 := specDigitsToHash_state c rest
        unfold specDigitsToHash
        rw [List.foldr_cons]
        simp only [Bool.eq_false_iff.mpr hc, Bool.false_eq_true, if_false]

theorem specDigitsToHash_eq (l : List Char) :
    specDigitsToHash l = digitsToHash l :=
  (digitsToHashGo_eq_spec l.length l le_rfl).symm

theorem specCollapseWs_state (c : Char) (rest : List Char) :
    ((c :: rest).foldr
      (fun c acc =>
        if isWsChar c then
          if acc.2 then (acc.1, true) else (' ' :: acc.1, true)
        else (c :: acc.1, false))
      (([] : List Char), false)).2 = isWsChar c := by
  rw [List.foldr_cons]
  by_cases h : isWsChar c = true
  · simp only [h, if_true]
    split <;> rfl
  · simp only [Bool.eq_false_iff.mpr h, Bool.false_eq_true, if_false]

theorem specCollapseWs_ws_run :
    ∀ (rest : List Char) (c : Char), isWsChar c = true →
      specCollapseWs (c :: rest) = ' ' :: specCollapseWs (dropWs rest) := by
  intro rest
  induction rest with
  | nil =>
    intro c hc
    simp [specCollapseWs, hc, dropWs]
  | cons d rest2 ih =>
    intro c hc
    by_cases hd : isWsChar d = true
    · have h2 := specCollapseWs_state d rest2
      unfold specCollapseWs
      rw [List.foldr_cons]
      simp only [hc, if_true, h2, hd, if_true]
      have := ih d hd
      unfold specCollapseWs at this
      rw [this]
      have hdd : dropWs (d :: rest2) = dropWs rest2 := by
        simp [dropWs, List.dropWhile, hd]
      rw [hdd]
    · have h2 := specCollapseWs_state d rest2
      unfold specCollapseWs
      rw [List.foldr_cons]
      simp only [hc, if_true, h2, Bool.eq_false_iff.mpr hd,
        Bool.false_eq_true, if_false]
      have hdd : dropWs (d :: rest2) = d :: rest2 := by
        simp [dropWs, List.dropWhile, Bool.eq_false_iff.mpr hd]
      rw [hdd]

theorem collapseWsGo_eq_spec :
    ∀ (fuel : Nat) (l : List Char), l.length ≤ fuel →
      collapseWsGo fuel l = specCollapseWs l := by
  intro fuel
  induction fuel with
  | zero =>
    intro l hl
    rw [List.eq_nil_of_length_eq_zero (Nat.le_zero.mp hl)]
    rfl
  | succ f ih =>
    intro l hl
    cases l with
    | nil => rfl
    | cons c rest =>
      simp only [List.length_cons] at hl
      by_cases hc : isWsChar c = true
      · have hlen : (dropWs rest).length ≤ f := by
          have := (List.dropWhile_sublist (l := rest) isWsChar).length_le
          simp only [dropWs]
          omega
        simp only [collapseWsGo, hc, if_true]
        rw [ih _ hlen, ← specCollapseWs_ws_run rest c hc]
      · simp only [collapseWsGo, Bool.eq_false_iff.mpr hc,
          Bool.false_eq_true, if_false]
        rw [ih rest (by omega)]
        have h2 := specCollapseWs_state c rest
        unfold specCollapseWs
        rw [List.foldr_cons]
        simp only [Bool.eq_false_iff.mpr hc, Bool.false_eq_true, if_false]

theorem specCollapseWs_eq (l : List Char) :
    specCollapseWs l = collapseWs l :=
  (collapseWsGo_eq_spec l.length l le_rfl).symm

/-- C5 (amended): `normalizeSubjectForCampaign` equals, on every string, the
pipeline: lowercase; remove every occurrence of a Re:/Fw:/Fwd: marker and its
trailing whitespace anywhere in the string (not only leading ones — the
regex lacks an anchor); replace every digit run with one # placeholder; strip
punctuation except the placeholder; collapse whitespace runs to single
spaces; trim; truncate to 100 characters. -/
theorem C5_amended_normalize_matches_spec (s : String) :
    normalizeSubjectForCampaign s = specNormalizeAmended s := by
  unfold normalizeSubjectForCampaign normalizeCore specNormalizeAmended
  rw [specDigitsToHash_eq, specCollapseWs_eq]
  rfl

/-- C5 counterexample: \"store: hello\" contains an internal \"re: \" match, so
the code normalizes it to \"stohello\", while the spec-worded leading-only
stripping yields \"store hello\". -/
theorem C5_counterexample :
    normalizeSubjectForCampaign "store: hello" = "stohello" ∧
    specNormalizeLeading "store: hello" = "store hello" ∧
    ("stohello" : String) ≠ "store hello" := by
  refine ⟨by decide, by decide, by decide⟩

end Phishy
